import Mathlib

/-!
Verification development for the ImageClicker task-automation engine.

This file gives a shallow embedding, in Lean 4, of the task execution engine of
the repository (src/core/task_manager.py, src/core/window_utils.py,
src/core/image_matcher.py, src/core/stats_tracker.py) and proves properties of
the engine against it.

Modelling conventions:
- Python `float` values that are only stored, compared and serialized
  (intervals, thresholds, match confidences) are modelled as `Rat`.
- Python exceptions are modelled with `Except String`; a source-level
  `try/except` block is the `pyTry` combinator. Primitive effectful calls
  (Quartz window enumeration, screen capture + OpenCV matching) are oracles in
  a `TickEnv` environment whose results may be an `Except.error`, standing for
  the call raising.
- The UI status strings and the log strings produced by the engine are
  modelled as abstract syntax (`StatusVal`, `LogMsg`), one constructor per
  distinct message produced by the source, carrying the data interpolated into
  the corresponding f-string.
- Python `dict` objects are association lists with Python's insertion-order
  semantics (`dictInsert` updates in place, inserts fresh keys at the end).
-/

namespace ImageClicker

/-- Python `try: body except: handler` where the body produces a value. -/
def pyTry {α : Type} (body : Except String α) (handler : String → α) : α :=
  match body with
  | .ok a => a
  | .error e => handler e

/-- Does the first character list start with the second one? -/
def chListStarts : List Char → List Char → Bool
  | _, [] => true
  | [], _ :: _ => false
  | a :: as, b :: bs => a == b && chListStarts as bs

/-- Does the second character list contain the first one as a contiguous block? -/
def chListHasSub (sub : List Char) : List Char → Bool
  | [] => chListStarts [] sub
  | c :: rest => chListStarts (c :: rest) sub || chListHasSub sub rest

/-- Python `sub in s` on strings (contiguous substring test). -/
def pyStrIn (sub s : String) : Bool :=
  chListHasSub sub.data s.data

/-- Python `s.lower()` (ASCII case mapping, which is what the engine's window
titles and process names exercise). -/
def pyLower (s : String) : String :=
  ⟨s.data.map Char.toLower⟩

/-- Python `s.startswith(p)`. -/
def pyStartsWith (s p : String) : Bool :=
  chListStarts s.data p.data

/-- Python `s.endswith(p)`. -/
def pyEndsWith (s p : String) : Bool :=
  chListStarts s.data.reverse p.data.reverse

/-- Python `s.replace("*", "")`: drop every `*` character. -/
def pyRemoveStars (s : String) : String :=
  ⟨s.data.filter (· ≠ '*')⟩

/-- Code-point lexicographic `≤` on character lists (Python string order). -/
def chListLe : List Char → List Char → Bool
  | [], _ => true
  | _ :: _, [] => false
  | a :: as, b :: bs =>
      if a.val < b.val then true
      else if b.val < a.val then false
      else chListLe as bs

/-- Python `a <= b` on strings. -/
def pyStrLe (a b : String) : Bool :=
  chListLe a.data b.data

/-- Stable insertion (after all existing elements of `≤` key), for `sortByKey`. -/
def insertByKey {α : Type} (key : α → String) (x : α) : List α → List α
  | [] => [x]
  | y :: ys => if pyStrLe (key y) (key x) then y :: insertByKey key x ys else x :: y :: ys

/-- Python `sorted(l, key=...)` with a string key (stable). -/
def sortByKey {α : Type} (key : α → String) (l : List α) : List α :=
  l.foldl (fun acc x => insertByKey key x acc) []

/-- Python dict assignment `d[k] = v`: update in place, fresh keys at the end. -/
def dictInsert {κ α : Type} [DecidableEq κ] : List (κ × α) → κ → α → List (κ × α)
  | [], k, v => [(k, v)]
  | (k', v') :: rest, k, v =>
      if k' = k then (k', v) :: rest else (k', v') :: dictInsert rest k v

/-- Python dict read `d.get(k)`. -/
def dictLookup {κ α : Type} [DecidableEq κ] : List (κ × α) → κ → Option α
  | [], _ => none
  | (k', v) :: rest, k => if k' = k then some v else dictLookup rest k

/-- Python `del d[k]` / `d.pop(k, None)`. -/
def dictErase {κ α : Type} [DecidableEq κ] : List (κ × α) → κ → List (κ × α)
  | [], _ => []
  | (k', v) :: rest, k => if k' = k then rest else (k', v) :: dictErase rest k

/-- Python `k in d`. -/
def dictContains {κ α : Type} [DecidableEq κ] (m : List (κ × α)) (k : κ) : Bool :=
  (dictLookup m k).isSome

/-- Keep-first deduplication by key, as in get_windows / get_windows_by_process. -/
def dedupFstAux {κ α : Type} [DecidableEq κ] (seen : List κ) : List (κ × α) → List (κ × α)
  | [] => []
  | (k, a) :: rest =>
      if k ∈ seen then dedupFstAux seen rest else (k, a) :: dedupFstAux (k :: seen) rest

/-- `seen = set(); ... if wid not in seen: seen.add(wid); unique.append(...)`. -/
def dedupFst {κ α : Type} [DecidableEq κ] (l : List (κ × α)) : List (κ × α) :=
  dedupFstAux [] l

/-! ### Status strings, log lines and dedup keys

Abstract syntax for each distinct status string / log line / `_last_log_status`
key the engine produces; each constructor records the data the source
interpolates into the literal string. -/

/-- The status strings written through `_update_status`. -/
inductive StatusVal : Type
  | aguardando                      -- "Aguardando" (Task dataclass default)
  | janela                          -- "Janela?"
  | buscando (n : Nat)              -- f-string "Buscando ({num_windows})..."
  | pct (m : Rat)                   -- f-string "{match:.0%}"
  | intervalo (s : Rat)             -- f-string "{task.interval}s"
  | parado                          -- "Parado"
  | imgQ                            -- "Img?"
  | optName (name : String)         -- f-string "{selected_opt['name']}"
  deriving DecidableEq, Repr

/-- The log lines sent through `_log`. -/
inductive LogMsg : Type
  | threadStarted (id : Int)                          -- "Task #i: Thread iniciada"
  | threadStopped (id : Int)                          -- "Task #i: Thread parada"
  | windowNotFoundTitle (id : Int) (title30 : String) -- "Janela '...' não encontrada"
  | processNotFound (id : Int) (proc : String)        -- "Processo '...' não encontrado"
  | singleDone (id : Int)                             -- "Execução única finalizada"
  | imageMissing (id : Int) (img : String)            -- "Imagem '...' não existe"
  | clickedSimple (id : Int) (m : Rat)                -- "Clicou! (..%)"
  | noOptions (id : Int)                              -- "Nenhuma opção configurada"
  | optTemplateMissing (id : Int) (img : String)      -- "Template '...' não encontrado"
  | partVisible (id : Int) (vis total : Nat)          -- "v/t opções visíveis (aguardando todas)"
  | promptConfirmed (id : Int) (total : Nat)          -- "Prompt confirmado! (t/t opções visíveis)"
  | optImageMissing (id : Int) (name : String)        -- "Imagem da opção '...' não existe"
  | clickedOption (id : Int) (name : String) (m : Rat) -- "Clicou em '...' (..%)"
  | optionChanged (id : Int) (name : String)          -- "Opção alterada para '...'"
  | taskStarted (id : Int)                            -- "Task #i iniciada"
  | alreadyRunning (id : Int)                         -- "Task #i já está rodando"
  | taskStopped (id : Int)                            -- "Task #i parada"
  | noTasksEnabled                                    -- "Nenhuma task habilitada!"
  deriving DecidableEq, Repr

/-- The `_last_log_status` keys: "window_not_found" and the "partial_v_t" keys. -/
inductive StatusKey : Type
  | windowNotFound
  | partVisible (vis total : Nat)
  deriving DecidableEq, Repr

/-! ### Window enumeration (src/core/window_utils.py)

A window's Quartz info dictionary, restricted to the keys the source reads. -/

structure WinInfo : Type where
  num : Int        -- kCGWindowNumber
  name : String    -- kCGWindowName
  owner : String   -- kCGWindowOwnerName
  width : Rat      -- kCGWindowBounds Width
  height : Rat     -- kCGWindowBounds Height
  layer : Int      -- kCGWindowLayer
  alpha : Rat      -- kCGWindowAlpha
  deriving DecidableEq, Repr

/-- The option record of a prompt_handler task: one dict of the `options` list. -/
structure PromptOption : Type where
  name : String
  image : String
  deriving DecidableEq, Repr

/-- Oracle environment for one polling tick: the primitive effectful calls.
An `Except.error` result models the primitive call raising an exception.
- `cgList b`: `CGWindowListCopyWindowInfo` plus the pure filtering in
  `_get_all_windows_info`; `b` is whether option `kCGWindowListOptionAll`
  was used (else on-screen only).
- `templateExists img`: `(images_dir / f"{img}.png").exists()`.
- `checkVisibleRaw hwnd img threshold`: the body of the `try` block of
  `check_template_visible` (capture + matchTemplate), whose internal
  no-capture/no-template branches are absorbed into an `ok (false, m)` result.
- `findClickRaw hwnd img action threshold`: the body of the `try` block of
  `find_and_click`; an `ok (true, msg, m)` result means the match succeeded
  and `_perform_ghost_click` was executed (a click was performed). -/
structure TickEnv : Type where
  cgList : Bool → Except String (List WinInfo)
  templateExists : String → Bool
  checkVisibleRaw : Int → String → Rat → Except String (Bool × Rat)
  findClickRaw : Int → String → String → Rat → Except String (Bool × String × Rat)

/-- `_get_all_windows_info(on_screen_only, include_all_spaces)`: raw listing
plus the manual dimension/layer/alpha filter for the all-spaces case.
May propagate an exception from the raw Quartz call (no try/except here). -/
def getAllWindowsInfo (env : TickEnv) (onScreenOnly : Bool)
    (includeAllSpaces : Bool := true) : Except String (List WinInfo) := do
  let useAll := if includeAllSpaces then true else !onScreenOnly
  let ws ← env.cgList useAll
  if onScreenOnly && includeAllSpaces then
    pure (ws.filter fun w =>
      decide (50 < w.width) && decide (50 < w.height) &&
      decide (w.layer = 0) && decide (0 < w.alpha))
  else
    pure ws

/-- `display_title = title if title else owner`. -/
def displayTitle (w : WinInfo) : String :=
  if w.name ≠ "" then w.name else w.owner

/-- `get_windows(include_minimized)`: list (id, display title) of windows with a
title longer than 2, deduplicated keeping first occurrence, sorted by
lower-cased title. The whole body is inside `try/except` returning []. -/
def get_windows (env : TickEnv) (include_minimized : Bool := true) :
    List (Int × String) :=
  pyTry (do
    let onScreen ← getAllWindowsInfo env true
    let windowList ←
      if include_minimized then do
        let allW ← getAllWindowsInfo env false
        let onIds := onScreen.map (·.num)
        pure (onScreen ++ allW.filter fun w => !(onIds.contains w.num))
      else
        pure onScreen
    let titled := windowList.filterMap fun w =>
      let dt := displayTitle w
      if dt ≠ "" ∧ dt.length > 2 then some (w.num, dt) else none
    pure (sortByKey (fun p => pyLower p.2) (dedupFst titled)))
  (fun _ => [])

/-- The wildcard title matching of `find_all_windows_by_title`. -/
def matchesTitlePattern (pattern title : String) : Bool :=
  let patternLower := pyRemoveStars (pyLower pattern)
  let titleLower := pyLower title
  if pyStartsWith pattern "*" && pyEndsWith pattern "*" then
    pyStrIn patternLower titleLower
  else if pyStartsWith pattern "*" then
    pyEndsWith titleLower patternLower
  else if pyEndsWith pattern "*" then
    pyStartsWith titleLower patternLower
  else if titleLower == pyLower pattern then
    true
  else
    pyStrIn (pyLower pattern) titleLower || pyStrIn titleLower (pyLower pattern)

/-- `find_all_windows_by_title(pattern, include_minimized=False)`. -/
def find_all_windows_by_title (env : TickEnv) (pattern : String)
    (include_minimized : Bool := false) : List Int :=
  (get_windows env include_minimized).filterMap fun p =>
    if matchesTitlePattern pattern p.2 then some p.1 else none

/-- `get_windows_by_process(process_name, title_filter, include_minimized)`:
windows whose owner contains the process name, optionally filtered by title,
deduplicated; the whole body is inside `try/except` returning []. -/
def get_windows_by_process (env : TickEnv) (process_name : String)
    (title_filter : Option String := none) (include_minimized : Bool := false) :
    List (Int × String × String) :=
  let processLower := pyLower process_name
  pyTry (do
    let ws ←
      if include_minimized then getAllWindowsInfo env false true
      else getAllWindowsInfo env true true
    let matching := ws.filterMap fun w =>
      if pyStrIn processLower (pyLower w.owner) then
        let dt := displayTitle w
        if dt.length > 2 then
          match title_filter with
          | none => some (w.num, dt, w.owner)
          | some tf =>
              if pyStrIn (pyLower tf) (pyLower dt) then some (w.num, dt, w.owner) else none
        else none
      else none
    pure (dedupFst matching))
  (fun _ => [])

/-- `find_all_windows_by_process(process_name, title_filter)`. -/
def find_all_windows_by_process (env : TickEnv) (process_name : String)
    (title_filter : Option String := none) (include_minimized : Bool := false) :
    List Int :=
  (get_windows_by_process env process_name title_filter include_minimized).map (·.1)

/-! ### The Task dataclass (src/core/task_manager.py) -/

structure Task : Type where
  id : Int
  window_title : String
  hwnd : Option Int
  image_name : String
  action : String := "click"
  «repeat» : Bool := false
  interval : Rat := 5
  enabled : Bool := true
  last_status : StatusVal := .aguardando   -- "Aguardando"
  threshold : Rat := 0.85
  task_type : String := "simple"
  options : Option (List PromptOption) := none
  selected_option : Int := 0
  window_method : String := "title"
  process_name : String := ""
  title_filter : String := ""
  window_index : Int := 0
  deriving DecidableEq, Repr

/-- The JSON object serialized for one task: the keys `to_dict` may write /
`from_dict` may read; `none` models an absent key (`id` is mandatory —
`from_dict` reads it with `data["id"]`, not `.get`). -/
structure TaskDict : Type where
  id : Int
  window_title : Option String := none
  image_name : Option String := none
  action : Option String := none
  «repeat» : Option Bool := none
  interval : Option Rat := none
  enabled : Option Bool := none
  task_type : Option String := none
  window_method : Option String := none
  threshold : Option Rat := none
  process_name : Option String := none
  title_filter : Option String := none
  window_index : Option Int := none
  options : Option (List PromptOption) := none
  selected_option : Option Int := none
  deriving DecidableEq, Repr

/-- Python truthiness of an optional list (`if options and len(options) > 0`,
`if task "." options`): `None` and `[]` are falsy. -/
def pyTruthyList {α : Type} : Option (List α) → Bool
  | none => false
  | some l => !l.isEmpty

/-- `Task.to_dict`. -/
def Task.to_dict (t : Task) : TaskDict :=
  let base : TaskDict :=
    { id := t.id
      window_title := some t.window_title
      image_name := some t.image_name
      action := some t.action
      «repeat» := some t.«repeat»
      interval := some t.interval
      enabled := some t.enabled
      task_type := some t.task_type
      window_method := some t.window_method
      threshold := some t.threshold }
  let base :=
    if t.window_method = "process" then
      { base with
          process_name := some t.process_name
          title_filter := some t.title_filter
          window_index := some t.window_index }
    else base
  if t.task_type = "prompt_handler" ∧ pyTruthyList t.options then
    { base with options := t.options, selected_option := some t.selected_option }
  else base

/-- `Task.from_dict`. -/
def Task.from_dict (d : TaskDict) : Task :=
  { id := d.id
    window_title := d.window_title.getD ""
    hwnd := none
    image_name := d.image_name.getD ""
    action := d.action.getD "click"
    «repeat» := d.«repeat».getD false
    interval := d.interval.getD 5
    enabled := d.enabled.getD true
    threshold := d.threshold.getD 0.85
    task_type := d.task_type.getD "simple"
    options := d.options
    selected_option := d.selected_option.getD 0
    window_method := d.window_method.getD "title"
    process_name := d.process_name.getD ""
    title_filter := d.title_filter.getD ""
    window_index := d.window_index.getD 0 }

/-- `Task.find_all_windows`: dispatch on the configured window method. -/
def Task.findAllWindows (t : Task) (env : TickEnv) : List Int :=
  if t.window_method = "process" then
    find_all_windows_by_process env t.process_name
      (if t.title_filter ≠ "" then some t.title_filter else none)
  else
    find_all_windows_by_title env t.window_title

/-! ### Matcher wrappers (src/core/image_matcher.py)

Both functions wrap their whole body in `try/except`; the body is the oracle. -/

/-- `check_template_visible(hwnd, path, threshold)`: `(visible, best match)`;
any exception in the body is caught and becomes `(False, 0.0)`. -/
def check_template_visible (env : TickEnv) (hwnd : Int) (img : String)
    (threshold : Rat) : Bool × Rat :=
  pyTry (env.checkVisibleRaw hwnd img threshold) (fun _ => (false, 0))

/-- `find_and_click(hwnd, path, action, threshold)`: `(success, msg, match)`;
any exception in the body is caught and becomes `(False, str(e), 0.0)`.
`success = true` exactly when the ghost click was dispatched. -/
def find_and_click (env : TickEnv) (hwnd : Int) (img : String) (action : String)
    (threshold : Rat) : Bool × String × Rat :=
  pyTry (env.findClickRaw hwnd img action threshold) (fun e => (false, e, 0))

/-! ### Observable effects of one call / one tick -/

/-- The callback and injector traffic produced while running engine code:
log lines (`_log`), status updates (`_update_status`), the template names
passed to `find_and_click` (`clickCalls`) and the subset for which the click
was actually performed (`clicks`), and the `on_execution` records. -/
structure Eff : Type where
  logs : List LogMsg := []
  statuses : List (Int × StatusVal) := []
  clickCalls : List String := []
  clicks : List String := []
  execs : List (Int × Bool) := []
  deriving DecidableEq, Repr

def Eff.append (a b : Eff) : Eff :=
  { logs := a.logs ++ b.logs
    statuses := a.statuses ++ b.statuses
    clickCalls := a.clickCalls ++ b.clickCalls
    clicks := a.clicks ++ b.clicks
    execs := a.execs ++ b.execs }

instance : Append Eff := ⟨Eff.append⟩

/-- `_run_simple_task(task, silent=False)`: returns `(found, match)` plus its
callback/click traffic. `task.hwnd` has been set by the caller's loop. -/
def runSimpleTask (env : TickEnv) (task : Task) (silent : Bool := false) :
    (Bool × Rat) × Eff :=
  if ¬ env.templateExists task.image_name then
    ((false, 0),
      if silent then {} else
        { logs := [.imageMissing task.id task.image_name]
          statuses := [(task.id, .imgQ)] })
  else
    let (success, _msg, m) :=
      find_and_click env (task.hwnd.getD 0) task.image_name task.action task.threshold
    ((success, m),
      { logs := if success then [.clickedSimple task.id m] else []
        clickCalls := [task.image_name]
        clicks := if success then [task.image_name] else [] })

/-- One pass of the option-visibility loop of `_run_prompt_handler`:
returns `(all_visible, best_match, visible_count, checked images, logs)`. -/
def promptCheckOptions (env : TickEnv) (task : Task) (silent : Bool) :
    List PromptOption → Bool × Rat × Nat × List String × List LogMsg
  | [] => (true, 0, 0, [], [])
  | opt :: rest =>
      let (restAll, restBest, restVis, restChecked, restLogs) :=
        promptCheckOptions env task silent rest
      if env.templateExists opt.image then
        let (vis, m) :=
          check_template_visible env (task.hwnd.getD 0) opt.image task.threshold
        (restAll && vis, max m restBest, (if vis then 1 else 0) + restVis,
          opt.image :: restChecked, restLogs)
      else
        (false, restBest, restVis, restChecked,
          (if silent then [] else [.optTemplateMissing task.id opt.image]) ++ restLogs)

/-- Clamping of `selected_option` in `_run_prompt_handler`:
`if selected_idx < 0 or selected_idx >= len(options): selected_idx = 0`. -/
def clampSelected (idx : Int) (n : Nat) : Nat :=
  if idx < 0 ∨ (n : Int) ≤ idx then 0 else idx.toNat

/-- `_run_prompt_handler(task, stop_event, silent=False)`.

`stop` is the value `stop_event.is_set()` reads during this call (held fixed
for the call). `lastLog` is the `_last_log_status` entry for this task id on
entry; the updated entry is returned.
Result: `((found, match), lastLog after, effects)`. -/
def runPromptHandler (env : TickEnv) (task : Task) (stop : Bool)
    (lastLog : Option StatusKey) (silent : Bool := false) :
    (Bool × Rat) × Option StatusKey × Eff :=
  match task.options with
  | none => ((false, 0), lastLog, if silent then {} else { logs := [.noOptions task.id] })
  | some opts =>
    if opts.isEmpty then
      -- `if not task.options` is also taken for an empty list
      ((false, 0), lastLog, if silent then {} else { logs := [.noOptions task.id] })
    else if stop then
      -- `if stop_event.is_set(): return False, 0.0` at the first option
      ((false, 0), lastLog, {})
    else
      let totalOptions := opts.length
      let (allVisible, bestMatch, visibleCount, _checked, optLogs) :=
        promptCheckOptions env task silent opts
      if ¬ allVisible then
        if visibleCount > 0 ∧ ¬ silent then
          let key := StatusKey.partVisible visibleCount totalOptions
          if lastLog ≠ some key then
            ((false, bestMatch), some key,
              { logs := optLogs ++ [.partVisible task.id visibleCount totalOptions] })
          else
            ((false, bestMatch), lastLog, { logs := optLogs })
        else
          ((false, bestMatch), lastLog, { logs := optLogs })
      else
        -- all options visible: prompt confirmed, dedup key popped
        let confirmLogs := optLogs ++ [.promptConfirmed task.id totalOptions]
        let idx := clampSelected task.selected_option totalOptions
        let selectedOpt := opts.getD idx ⟨"", ""⟩
        if ¬ env.templateExists selectedOpt.image then
          ((false, bestMatch), none,
            if silent then { logs := confirmLogs } else
              { logs := confirmLogs ++ [.optImageMissing task.id selectedOpt.name]
                statuses := [(task.id, .imgQ)] })
        else
          let (success, _msg, m) :=
            find_and_click env (task.hwnd.getD 0) selectedOpt.image task.action
              task.threshold
          ((success, if success then m else bestMatch), none,
            { logs := confirmLogs ++
                (if success then [.clickedOption task.id selectedOpt.name m] else [])
              statuses := [(task.id, .optName selectedOpt.name)]
              clickCalls := [selectedOpt.image]
              clicks := if success then [selectedOpt.image] else [] })

/-! ### One tick of `_run_task` (the body of the worker's while loop) -/

/-- How one iteration of the `_run_task` while loop ends. -/
inductive TickOutcome : Type
  | exitNoWindow    -- `break` in the empty-window branch (non-repeating task)
  | exitSingleDone  -- `break` after "Execução única finalizada"
  | contBackoff     -- `stop_event.wait(2); continue` (no window, repeating)
  | contInterval    -- `stop_event.wait(task.interval)` then next iteration
  deriving DecidableEq, Repr

structure TickResult : Type where
  task : Task
  lastLog : Option StatusKey
  outcome : TickOutcome
  found : Bool
  matchVal : Rat
  eff : Eff
  deriving DecidableEq, Repr

/-- The `for hwnd in all_windows` scan of `_run_task`: sets `task.hwnd`,
dispatches on the task type, stops at the first window where the template
search succeeds, otherwise keeps the best match seen.
`stop` is the value the `stop_event.is_set()` checks read during the scan.
Returns `(task, lastLog, success, match, effects)`. -/
def scanWindows (env : TickEnv) (stop : Bool) :
    List Int → Task → Option StatusKey → Rat →
    Task × Option StatusKey × Bool × Rat × Eff
  | [], task, ll, best => (task, ll, false, best, {})
  | hwnd :: rest, task, ll, best =>
    if stop then (task, ll, false, best, {})
    else
      let task := { task with hwnd := some hwnd }
      if task.task_type = "prompt_handler" then
        let ((found, m), ll', eff) := runPromptHandler env task stop ll
        if found then (task, ll', true, m, eff)
        else
          let best' := if m > best then m else best
          let (t', ll'', f, b, eff') := scanWindows env stop rest task ll' best'
          (t', ll'', f, b, eff ++ eff')
      else
        let ((found, m), eff) := runSimpleTask env task
        if found then (task, ll, true, m, eff)
        else
          let best' := if m > best then m else best
          let (t', ll', f, b, eff') := scanWindows env stop rest task ll best'
          (t', ll', f, b, eff ++ eff')

/-- One iteration of the while loop of `_run_task(task, stop_event)`, entered
with the loop condition already checked. `stop` is what `stop_event.is_set()`
reads during this iteration; `lastLog` is `_last_log_status.get(task.id)`.
The elapsed-time computation is not modelled; the `on_execution` record keeps
`(task id, success)`. The returned task carries the final `last_status`. -/
def runTaskTick (env : TickEnv) (stop : Bool) (task : Task)
    (lastLog : Option StatusKey) : TickResult :=
  let allWindows := task.findAllWindows env
  if allWindows.isEmpty then
    let notFoundLog : LogMsg :=
      if task.window_method = "process" then
        .processNotFound task.id task.process_name
      else
        .windowNotFoundTitle task.id (task.window_title.take 30)
    let (logEff, ll') :=
      if lastLog ≠ some StatusKey.windowNotFound then
        (({ logs := [notFoundLog] } : Eff), some StatusKey.windowNotFound)
      else
        (({} : Eff), lastLog)
    let eff : Eff := ({ statuses := [(task.id, .janela)] } : Eff) ++ logEff
    { task := { task with last_status := .janela }
      lastLog := ll'
      outcome := if ¬ task.«repeat» then .exitNoWindow else .contBackoff
      found := false
      matchVal := 0
      eff := eff }
  else
    -- windows found: reset the "window_not_found" dedup key
    let ll0 := if lastLog = some StatusKey.windowNotFound then none else lastLog
    let effSearch : Eff := { statuses := [(task.id, .buscando allWindows.length)] }
    let (task', ll1, success, m, effScan) := scanWindows env stop allWindows task ll0 0
    let effReport : Eff :=
      { execs := [(task.id, success)], statuses := [(task.id, .pct m)] }
    let effTail : Eff :=
      if ¬ task.«repeat» then { logs := [.singleDone task.id] }
      else { statuses := [(task.id, .intervalo task.interval)] }
    let eff := effSearch ++ effScan ++ effReport ++ effTail
    { task := { task' with
        last_status := ((eff.statuses.map (·.2)).getLast?).getD task.last_status }
      lastLog := ll1
      outcome := if ¬ task.«repeat» then .exitSingleDone else .contInterval
      found := success
      matchVal := m
      eff := eff }

/-- Number of "window not found" log lines in a log list. -/
def countNotFoundLogs (logs : List LogMsg) : Nat :=
  (logs.filter fun l =>
    match l with
    | .windowNotFoundTitle _ _ => true
    | .processNotFound _ _ => true
    | _ => false).length

/-- `n` consecutive iterations of the `_run_task` loop (the worker never being
cancelled), tick `i` running under environment `envs i`; collects the log
lines of all iterations. Faithful to the loop as long as no iteration exits,
which is the case for repeating tasks. -/
def runTickSeqAux (envs : Nat → TickEnv) :
    Nat → Nat → Task → Option StatusKey → Task × Option StatusKey × List LogMsg
  | _, 0, t, ll => (t, ll, [])
  | i, n+1, t, ll =>
    let r := runTaskTick (envs i) false t ll
    let (t', ll', logs) := runTickSeqAux envs (i+1) n r.task r.lastLog
    (t', ll', r.eff.logs ++ logs)

def runTickSeq (envs : Nat → TickEnv) (n : Nat) (t : Task)
    (ll : Option StatusKey) : Task × Option StatusKey × List LogMsg :=
  runTickSeqAux envs 0 n t ll

/-! ### The TaskManager object and its operations -/

/-- The mutable fields of a `TaskManager` instance. `task_threads` maps a task
id to the identity of the `threading.Event` object stored for it (the
cancellation signal); the events themselves live in the surrounding system
state, since a worker keeps its reference to the event even after the map
entry is deleted. `hasExecutor` mirrors `self.executor is not None`. -/
structure TaskManager : Type where
  tasks : List (Int × Task) := []
  running : Bool := false
  hasExecutor : Bool := false
  task_threads : List (Int × Nat) := []
  next_id : Int := 1
  last_log_status : List (Int × StatusKey) := []
  deriving DecidableEq, Repr

/-- `is_task_running(task_id)`: membership in the `task_threads` map. -/
def TaskManager.is_task_running (m : TaskManager) (id : Int) : Bool :=
  dictContains m.task_threads id

/-- The keyword arguments of `add_task`, with the source's defaults. -/
structure AddArgs : Type where
  window_title : String := ""
  image_name : String := ""
  action : String := "click"
  «repeat» : Bool := false
  interval : Rat := 5
  window_method : String := "title"
  process_name : String := ""
  title_filter : String := ""
  window_index : Int := 0
  threshold : Rat := 0.85
  options : Option (List PromptOption) := none
  selected_option : Int := 0
  deriving DecidableEq, Repr

/-- `add_task(...)`: decide the task type from `options`, allocate the next id,
store the task, bump the counter, return the task. -/
def TaskManager.add_task (m : TaskManager) (a : AddArgs) : TaskManager × Task :=
  let promptMode := pyTruthyList a.options
  let task : Task :=
    { id := m.next_id
      window_title := a.window_title
      hwnd := none
      image_name := a.image_name
      action := a.action
      «repeat» := if promptMode then true else a.«repeat»
      interval := a.interval
      threshold := a.threshold
      task_type := if promptMode then "prompt_handler" else "simple"
      options := if promptMode then a.options else none
      selected_option := a.selected_option
      window_method := a.window_method
      process_name := a.process_name
      title_filter := a.title_filter
      window_index := a.window_index }
  ({ m with tasks := dictInsert m.tasks task.id task, next_id := m.next_id + 1 },
    task)

/-- The keyword arguments accepted by `update_task(task_id, **kwargs)`; any
attribute of the `Task` dataclass can be patched (`hasattr` check). -/
structure TaskPatch : Type where
  id : Option Int := none
  window_title : Option String := none
  hwnd : Option (Option Int) := none
  image_name : Option String := none
  action : Option String := none
  «repeat» : Option Bool := none
  interval : Option Rat := none
  enabled : Option Bool := none
  last_status : Option StatusVal := none
  threshold : Option Rat := none
  task_type : Option String := none
  options : Option (Option (List PromptOption)) := none
  selected_option : Option Int := none
  window_method : Option String := none
  process_name : Option String := none
  title_filter : Option String := none
  window_index : Option Int := none
  deriving DecidableEq, Repr

/-- The `setattr` loop of `update_task`. -/
def applyPatch (t : Task) (p : TaskPatch) : Task :=
  { id := p.id.getD t.id
    window_title := p.window_title.getD t.window_title
    hwnd := p.hwnd.getD t.hwnd
    image_name := p.image_name.getD t.image_name
    action := p.action.getD t.action
    «repeat» := p.«repeat».getD t.«repeat»
    interval := p.interval.getD t.interval
    enabled := p.enabled.getD t.enabled
    last_status := p.last_status.getD t.last_status
    threshold := p.threshold.getD t.threshold
    task_type := p.task_type.getD t.task_type
    options := p.options.getD t.options
    selected_option := p.selected_option.getD t.selected_option
    window_method := p.window_method.getD t.window_method
    process_name := p.process_name.getD t.process_name
    title_filter := p.title_filter.getD t.title_filter
    window_index := p.window_index.getD t.window_index }

/-- `save_tasks`: the JSON array written to the file. -/
def TaskManager.save_tasks (m : TaskManager) : List TaskDict :=
  m.tasks.map fun p => p.2.to_dict

/-- `load_tasks(filepath)`. The argument models the file system:
`none` = file does not exist (early return), `some (.error e)` = `json.load`
raised (caught, state unchanged), `some (.ok data)` = the parsed array.
On success the task set is cleared and rebuilt, and for each loaded task
`_next_id = max(_next_id, task.id + 1)`. -/
def TaskManager.load_tasks (m : TaskManager)
    (file : Option (Except String (List TaskDict))) : TaskManager :=
  match file with
  | none => m
  | some (.error _) => m
  | some (.ok data) =>
    data.foldl
      (fun m d =>
        let task := Task.from_dict d
        { m with
            tasks := dictInsert m.tasks task.id task
            next_id := max m.next_id (task.id + 1) })
      { m with tasks := [] }

/-- A live worker: the `_run_task(task, stop_event)` invocation. It holds its
own reference to the task object and to its stop event; `done` records that
its while loop has exited (or will exit at the next condition check). -/
structure Worker : Type where
  taskId : Int
  eventId : Nat
  task : Task
  done : Bool := false
  deriving DecidableEq, Repr

/-- The whole system: the manager object, the heap of `threading.Event`
objects (id → is_set), the live workers, and the accumulated observer
callback traffic (`on_log`, `on_status_update`, `on_execution`) and ghost
clicks. -/
structure SysState : Type where
  mgr : TaskManager := {}
  events : List (Nat × Bool) := []
  nextEvent : Nat := 0
  workers : List Worker := []
  log : List LogMsg := []
  statusEvents : List (Int × StatusVal) := []
  execRecords : List (Int × Bool) := []
  clicksAll : List String := []
  deriving Repr

/-- `event.set()` on the event heap. -/
def setEvent (s : SysState) (eid : Nat) : SysState :=
  { s with events := dictInsert s.events eid true }

/-- Spawn a worker for `task`: fresh `threading.Event`, register it in
`task_threads` under `mapKey` (`start()` uses `task.id`, `start_single` uses
its `task_id` argument), submit `_run_task` to the executor (which
immediately logs "Thread iniciada" once the thread runs). `objKey` is the
`tasks`-dict key under which the shared task object lives: the worker reads
and writes the object through it while the task exists. -/
def spawnWorker (s : SysState) (mapKey objKey : Int) (task : Task) : SysState :=
  let eid := s.nextEvent
  { s with
      mgr := { s.mgr with task_threads := dictInsert s.mgr.task_threads mapKey eid }
      events := dictInsert s.events eid false
      nextEvent := eid + 1
      workers := s.workers ++ [{ taskId := objKey, eventId := eid, task := task }]
      log := s.log ++ [.threadStarted task.id] }

/-- `remove_task(task_id)`: signal the worker's event if one is registered
(the `task_threads` entry itself is not deleted), then delete the task. -/
def SysState.remove_task (s : SysState) (id : Int) : SysState :=
  let s :=
    match dictLookup s.mgr.task_threads id with
    | some eid => setEvent s eid
    | none => s
  { s with mgr := { s.mgr with tasks := dictErase s.mgr.tasks id } }

/-- `update_task(task_id, **kwargs)`: no-op on an unknown id. -/
def SysState.update_task (s : SysState) (id : Int) (p : TaskPatch) : SysState :=
  match dictLookup s.mgr.tasks id with
  | none => s
  | some t =>
    { s with mgr := { s.mgr with tasks := dictInsert s.mgr.tasks id (applyPatch t p) } }

/-- `set_selected_option(task_id, option_index)`: guarded update plus log. -/
def SysState.set_selected_option (s : SysState) (id : Int) (idx : Int) : SysState :=
  match dictLookup s.mgr.tasks id with
  | none => s
  | some t =>
    if t.task_type = "prompt_handler" ∧ pyTruthyList t.options then
      let opts := t.options.getD []
      if 0 ≤ idx ∧ idx < (opts.length : Int) then
        { s with
            mgr := { s.mgr with
              tasks := dictInsert s.mgr.tasks id { t with selected_option := idx } }
            log := s.log ++ [.optionChanged id (opts.getD idx.toNat ⟨"", ""⟩).name] }
      else s
    else s

/-- `start()`: start a worker for every enabled task (no-op if already
running; only a log line if no task is enabled). -/
def SysState.start (s : SysState) : SysState :=
  if s.mgr.running then s
  else
    let s := { s with mgr := { s.mgr with running := true } }
    let enabledTasks := s.mgr.tasks.filter (·.2.enabled)
    if enabledTasks.isEmpty then
      { s with log := s.log ++ [.noTasksEnabled] }
    else
      let s := { s with mgr := { s.mgr with hasExecutor := true } }
      enabledTasks.foldl
        (fun s p =>
          let s := spawnWorker s p.2.id p.1 p.2
          { s with log := s.log ++ [.taskStarted p.2.id] })
        s

/-- `start_single(task_id)`: no-op on unknown id, runs-once check against
`task_threads`, lazy executor creation, spawn. -/
def SysState.start_single (s : SysState) (id : Int) : SysState :=
  match dictLookup s.mgr.tasks id with
  | none => s
  | some task =>
    if dictContains s.mgr.task_threads id then
      { s with log := s.log ++ [.alreadyRunning id] }
    else
      let s := { s with mgr := { s.mgr with running := true } }
      let s :=
        if ¬ s.mgr.hasExecutor then { s with mgr := { s.mgr with hasExecutor := true } }
        else s
      spawnWorker s id id task

/-- `stop_single(task_id)`: signal and deregister the worker, clear the log
dedup memory, log, set the task's status to "Parado". -/
def SysState.stop_single (s : SysState) (id : Int) : SysState :=
  match dictLookup s.mgr.task_threads id with
  | none => s
  | some eid =>
    let s := setEvent s eid
    let s :=
      { s with
          mgr := { s.mgr with
            task_threads := dictErase s.mgr.task_threads id
            last_log_status := dictErase s.mgr.last_log_status id }
          log := s.log ++ [.taskStopped id] }
    match dictLookup s.mgr.tasks id with
    | none => s
    | some t =>
      { s with
          mgr := { s.mgr with
            tasks := dictInsert s.mgr.tasks id { t with last_status := .parado } }
          statusEvents := s.statusEvents ++ [(t.id, .parado)] }

/-- `stop()`: signal every registered event, clear `task_threads` and the log
dedup memory, drop the executor. -/
def SysState.stop (s : SysState) : SysState :=
  let s := { s with mgr := { s.mgr with running := false } }
  let s := s.mgr.task_threads.foldl (fun s p => setEvent s p.2) s
  { s with
      mgr := { s.mgr with
        task_threads := []
        last_log_status := []
        hasExecutor := false } }

/-- `clear_tasks()`: `stop()`, clear the task set, reset the id counter. -/
def SysState.clear_tasks (s : SysState) : SysState :=
  let s := s.stop
  { s with mgr := { s.mgr with tasks := [], next_id := 1 } }

/-- Replace the state of the worker with the given event id. -/
def updateWorker (s : SysState) (eid : Nat) (w : Worker) : SysState :=
  { s with workers := s.workers.map fun w' => if w'.eventId = eid then w else w' }

/-- One iteration of a live worker's loop. The worker first re-checks its loop
condition (`not stop_event.is_set() and self.running`): if it fails, the loop
exits (`done`). Otherwise the iteration body `runTaskTick` runs; `stopMid`
is what the in-scan `stop_event.is_set()` checks read (the event may be set
concurrently during the scan). The worker reads the shared task object
(the manager's entry when the task still exists, else its own reference) and
writes back the status mutations. -/
def SysState.workerTick (s : SysState) (eid : Nat) (stopMid : Bool)
    (env : TickEnv) : SysState :=
  match s.workers.find? (fun w => w.eventId = eid) with
  | none => s
  | some w =>
    if w.done then s
    else
      let stopSet := (dictLookup s.events w.eventId).getD false
      if stopSet || !s.mgr.running then
        updateWorker s eid { w with done := true }
      else
        let t := (dictLookup s.mgr.tasks w.taskId).getD w.task
        let ll := dictLookup s.mgr.last_log_status w.taskId
        let r := runTaskTick env stopMid t ll
        let s := updateWorker s eid
          { w with
              task := r.task
              done := r.outcome = .exitNoWindow || r.outcome = .exitSingleDone }
        { s with
            mgr := { s.mgr with
              tasks :=
                if dictContains s.mgr.tasks w.taskId then
                  dictInsert s.mgr.tasks w.taskId r.task
                else s.mgr.tasks
              last_log_status :=
                match r.lastLog with
                | some k => dictInsert s.mgr.last_log_status w.taskId k
                | none => dictErase s.mgr.last_log_status w.taskId }
            log := s.log ++ r.eff.logs
            statusEvents := s.statusEvents ++ r.eff.statuses
            execRecords := s.execRecords ++ r.eff.execs
            clicksAll := s.clicksAll ++ r.eff.clicks }

/-- A worker whose loop has ended runs the epilogue (status "Parado", log
"Thread parada") and its thread terminates. Enabled only when the loop really
would exit: the body broke out (`done`), the event is set, or the manager is
no longer running. The `task_threads` map is not touched. -/
def SysState.workerFinish (s : SysState) (eid : Nat) : SysState :=
  match s.workers.find? (fun w => w.eventId = eid) with
  | none => s
  | some w =>
    let stopSet := (dictLookup s.events w.eventId).getD false
    if w.done || stopSet || !s.mgr.running then
      let t := (dictLookup s.mgr.tasks w.taskId).getD w.task
      let s :=
        { s with
            mgr := { s.mgr with
              tasks :=
                if dictContains s.mgr.tasks w.taskId then
                  dictInsert s.mgr.tasks w.taskId { t with last_status := .parado }
                else s.mgr.tasks }
            statusEvents := s.statusEvents ++ [(t.id, StatusVal.parado)]
            log := s.log ++ [LogMsg.threadStopped t.id] }
      { s with workers := s.workers.filter fun w' => w'.eventId ≠ eid }
    else s

/-- The operations of the engine's interface, plus the two scheduler events
(worker iteration, worker exit). -/
inductive MgrOp : Type
  | add (a : AddArgs)
  | remove (id : Int)
  | update (id : Int) (p : TaskPatch)
  | setSel (id : Int) (idx : Int)
  | startAll
  | startSingle (id : Int)
  | stopSingle (id : Int)
  | stopAll
  | clear
  | load (file : Option (Except String (List TaskDict)))
  | tick (eid : Nat) (stopMid : Bool) (env : TickEnv)
  | finish (eid : Nat)

def execOp (s : SysState) : MgrOp → SysState
  | .add a => { s with mgr := (s.mgr.add_task a).1 }
  | .remove id => s.remove_task id
  | .update id p => s.update_task id p
  | .setSel id idx => s.set_selected_option id idx
  | .startAll => s.start
  | .startSingle id => s.start_single id
  | .stopSingle id => s.stop_single id
  | .stopAll => s.stop
  | .clear => s.clear_tasks
  | .load f => { s with mgr := s.mgr.load_tasks f }
  | .tick eid stopMid env => s.workerTick eid stopMid env
  | .finish eid => s.workerFinish eid

def execOps (s : SysState) (ops : List MgrOp) : SysState :=
  ops.foldl execOp s

/-- The ids handed out by the `add_task` calls of a trace, in order. -/
def assignedIds : SysState → List MgrOp → List Int
  | _, [] => []
  | s, op :: ops =>
    let rest := assignedIds (execOp s op) ops
    match op with
    | .add _ => s.mgr.next_id :: rest
    | _ => rest

/-- The initial system: a freshly constructed TaskManager, no events, no
workers, no traffic. -/
def sysInit : SysState := {}

/-! ### StatsTracker loading (src/core/stats_tracker.py) -/

/-- The `TaskStats` dataclass. -/
structure TaskStats : Type where
  total_executions : Int := 0
  successful_clicks : Int := 0
  failed_matches : Int := 0
  total_match_time_ms : Rat := 0
  last_execution : Option String := none
  hourly_executions : List (Int × Int) := []
  deriving DecidableEq, Repr

/-- The parsed JSON stats file as `_load` walks it. A per-task entry value of
`.error e` models `TaskStats.from_dict(task_data)` raising on that entry
(e.g. the value is not an object, or an hourly key is not an integer);
likewise for the optional "global" entry. -/
structure StatsFile : Type where
  globalEntry : Option (Except String TaskStats) := none
  tasks : Option (List (String × Except String TaskStats)) := none

/-- The fields of a `StatsTracker` that `_load` assigns, plus the diagnostic
prints of its `except` clause. -/
structure StatsTrackerState : Type where
  stats : List (Int × TaskStats) := []
  global_stats : TaskStats := {}
  diag : List String := []
  deriving DecidableEq, Repr

/-- Decimal digit-string value, `none` when a non-digit occurs. -/
def digitsValAux : List Char → Nat → Option Nat
  | [], acc => some acc
  | c :: rest, acc =>
      if c.isDigit then digitsValAux rest (acc * 10 + (c.toNat - 48)) else none

def digitsVal : List Char → Option Nat
  | [] => none
  | l => digitsValAux l 0

/-- Python `int(s)` on a plain decimal string (optional leading minus sign);
`none` models `int()` raising `ValueError`. -/
def pyParseInt (s : String) : Option Int :=
  match s.data with
  | '-' :: rest => (digitsVal rest).map fun n => -(n : Int)
  | l => (digitsVal l).map fun n => (n : Int)

/-- The `for task_id_str, task_data in data["tasks"].items()` loop. For
`self._stats[int(k)] = TaskStats.from_dict(v)` CPython evaluates the
right-hand side first, then `int(k)`; the first raise aborts the loop keeping
the insertions made so far, and reports the exception text. -/
def loadStatsEntries :
    List (String × Except String TaskStats) → List (Int × TaskStats) →
    List (Int × TaskStats) × Option String
  | [], acc => (acc, none)
  | (k, v) :: rest, acc =>
    match v with
    | .error e => (acc, some e)
    | .ok ts =>
      match pyParseInt k with
      | none => (acc, some "invalid literal for int")
      | some ki => loadStatsEntries rest (dictInsert acc ki ts)

/-- `StatsTracker._load`, run at construction on a fresh tracker. The whole
body (`json.load` and both loops) is inside one `try/except` that prints the
exception and returns; state mutations made before the raise are kept.
`none` = stats file does not exist (early return). -/
def statsLoad (file : Option (Except String StatsFile)) : StatsTrackerState :=
  match file with
  | none => {}
  | some (.error e) => { diag := [e] }
  | some (.ok data) =>
    match data.globalEntry with
    | some (.error e) => { diag := [e] }
    | g =>
      let st : StatsTrackerState :=
        { global_stats :=
            match g with
            | some (.ok gs) => gs
            | _ => {} }
      match data.tasks with
      | none => st
      | some entries =>
        let (loaded, err) := loadStatsEntries entries []
        { st with
            stats := loaded
            diag :=
              match err with
              | some e => [e]
              | none => [] }

/-- A per-task stats entry that `_load` can process without raising. -/
def entryParses (e : String × Except String TaskStats) : Prop :=
  (∃ ts, e.2 = Except.ok ts) ∧ (pyParseInt e.1).isSome

/-! ### Derived notions used by the statements -/

/-- An option of a prompt_handler whose template file exists and whose
visibility check reports it visible on the current window of `task`. -/
def reportedVisible (env : TickEnv) (task : Task) (o : PromptOption) : Prop :=
  env.templateExists o.image = true ∧
  (check_template_visible env (task.hwnd.getD 0) o.image task.threshold).1 = true

/-- The image of the option `_run_prompt_handler` would click for `task`. -/
def selectedImage (task : Task) (opts : List PromptOption) : String :=
  (opts.getD (clampSelected task.selected_option opts.length) ⟨"", ""⟩).image

/-- Operations that neither reset the id counter (`clear_tasks`) nor patch the
`id` attribute through `update_task(**kwargs)`. -/
def opSafeForIds : MgrOp → Prop
  | .clear => False
  | .update _ p => p.id = none
  | _ => True

/-- `max(id of loaded tasks)` over a tasks JSON array (0 for an empty one). -/
def maxIdOf (data : List TaskDict) : Int :=
  (data.map (·.id)).foldl max 0

/-- The id bookkeeping invariant of a TaskManager: every stored task sits
under its own id as dict key, all live ids are below the counter, and the
dict keys are distinct. -/
def TaskIdsInv (s : SysState) : Prop :=
  (∀ p ∈ s.mgr.tasks, p.1 = p.2.id ∧ p.2.id < s.mgr.next_id)
  ∧ (s.mgr.tasks.map (·.1)).Nodup

/-! ### Concrete fixtures for witnesses and counterexamples -/

/-- An environment where window enumeration returns no windows and no
template exists. -/
def envNoWindows : TickEnv where
  cgList := fun _ => .ok []
  templateExists := fun _ => false
  checkVisibleRaw := fun _ _ _ => .ok (false, 0)
  findClickRaw := fun _ _ _ _ => .ok (false, "Nao encontrado", 0)

/-- An environment where every primitive collaborator call raises. -/
def envAllRaise : TickEnv where
  cgList := fun _ => .error "Quartz failure"
  templateExists := fun _ => true
  checkVisibleRaw := fun _ _ _ => .error "cv2 failure"
  findClickRaw := fun _ _ _ _ => .error "cv2 failure"

/-- One plain visible window. -/
def win1 : WinInfo where
  num := 7
  name := "Claude Code"
  owner := "Terminal"
  width := 800
  height := 600
  layer := 0
  alpha := 1

/-- An environment with one window where every template exists, every
visibility check reports visible at 90%, and clicks find their target. -/
def envAllVisible : TickEnv where
  cgList := fun _ => .ok [win1]
  templateExists := fun _ => true
  checkVisibleRaw := fun _ _ _ => .ok (true, 0.9)
  findClickRaw := fun _ _ _ _ => .ok (true, "click OK", 0.9)

/-- Like `envAllVisible` but the template named "btn_nao" is not visible. -/
def envOneHidden : TickEnv where
  cgList := fun _ => .ok [win1]
  templateExists := fun _ => true
  checkVisibleRaw := fun _ img _ =>
    if img = "btn_nao" then .ok (false, 0) else .ok (true, 1)
  findClickRaw := fun _ _ _ _ => .ok (true, "click OK", 1)

/-- The two options of the fixture prompt tasks. -/
def optsSimNao : List PromptOption := [⟨"Sim", "btn_sim"⟩, ⟨"Nao", "btn_nao"⟩]

/-- A prompt_handler task positioned on window 7, selection on option 1. -/
def promptTask : Task where
  id := 3
  window_title := "Claude"
  hwnd := some 7
  image_name := ""
  «repeat» := true
  task_type := "prompt_handler"
  options := some optsSimNao
  selected_option := 1

/-- `promptTask` with an out-of-range selected option. -/
def promptTaskOOR : Task :=
  { promptTask with selected_option := 5 }

/-- A repeating simple task looking for the window "Claude". -/
def simpleRepTask : Task where
  id := 1
  window_title := "Claude"
  hwnd := none
  image_name := "save_btn"
  «repeat» := true

/-- A Quartz window info record for a window titled "Claude" that survives
the dimension/layer/alpha filter. -/
def claudeWin : WinInfo :=
  { num := 7, name := "Claude", owner := "Claude", width := 100, height := 100,
    layer := 0, alpha := 1 }

/-- An environment where exactly one eligible window (titled "Claude") is
enumerated, every template exists on disk, and both matcher bodies raise. -/
def envMatcherRaise : TickEnv where
  cgList := fun _ => .ok [claudeWin]
  templateExists := fun _ => true
  checkVisibleRaw := fun _ _ _ => .error "cv2 assertion failed"
  findClickRaw := fun _ _ _ _ => .error "cv2 assertion failed"

/-- A stats file with a well-formed entry "1", a malformed entry "5" (its
dict raises in `TaskStats.from_dict`), and a well-formed entry "2", in that
order. -/
def statsFileCx : StatsFile :=
  { tasks := some [("1", .ok {}), ("5", .error "corrupt"), ("2", .ok {})] }

/-- The spec's round-trip scenario task. -/
def notepadTask : Task :=
  { id := 1, window_title := "Notepad", hwnd := none, image_name := "save_btn" }

/-- `notepadTask` addressed through a process selector instead. -/
def notepadProcTask : Task :=
  { notepadTask with window_method := "process", process_name := "Code.exe" }

/-- A manager holding only `notepadTask`. -/
def notepadManager : TaskManager :=
  { tasks := [(1, notepadTask)], next_id := 2 }

/-! ## Lemmas about the dictionary model -/

theorem dictLookup_eq_none_iff {κ α : Type} [DecidableEq κ]
    (m : List (κ × α)) (k : κ) :
    dictLookup m k = none ↔ k ∉ m.map (·.1) := by
  induction m with
  | nil => simp [dictLookup]
  | cons p rest ih =>
    obtain ⟨k', v⟩ := p
    by_cases h : k' = k
    · subst h; simp [dictLookup]
    · rw [dictLookup, if_neg h, ih]
      simp only [List.map_cons, List.mem_cons, not_or]
      constructor
      · intro hk
        exact ⟨fun he => h he.symm, hk⟩
      · exact fun hk => hk.2

theorem dictLookup_mem {κ α : Type} [DecidableEq κ]
    {m : List (κ × α)} {k : κ} {v : α} (h : dictLookup m k = some v) :
    (k, v) ∈ m := by
  induction m with
  | nil => simp [dictLookup] at h
  | cons p rest ih =>
    obtain ⟨k', v'⟩ := p
    by_cases hk : k' = k
    · subst hk
      rw [dictLookup, if_pos rfl, Option.some.injEq] at h
      subst h
      exact List.mem_cons_self _ _
    · rw [dictLookup, if_neg hk] at h
      exact List.mem_cons_of_mem _ (ih h)

theorem dictLookup_isSome_iff {κ α : Type} [DecidableEq κ]
    (m : List (κ × α)) (k : κ) :
    (dictLookup m k).isSome = true ↔ k ∈ m.map (·.1) := by
  cases h : dictLookup m k with
  | none =>
    simpa using (dictLookup_eq_none_iff m k).mp h
  | some v =>
    simp only [Option.isSome_some, true_iff]
    exact List.mem_map_of_mem _ (dictLookup_mem h)

theorem dictInsert_fresh {κ α : Type} [DecidableEq κ]
    {m : List (κ × α)} {k : κ} (v : α) (h : k ∉ m.map (·.1)) :
    dictInsert m k v = m ++ [(k, v)] := by
  induction m with
  | nil => simp [dictInsert]
  | cons p rest ih =>
    obtain ⟨k', v'⟩ := p
    simp only [List.map_cons, List.mem_cons] at h
    push_neg at h
    simp [dictInsert, Ne.symm h.1, ih h.2]

theorem mem_dictInsert {κ α : Type} [DecidableEq κ]
    {m : List (κ × α)} {k : κ} {v : α} {p : κ × α} (h : p ∈ dictInsert m k v) :
    p ∈ m ∨ p = (k, v) := by
  induction m with
  | nil =>
    right
    simpa [dictInsert] using h
  | cons q rest ih =>
    obtain ⟨k', v'⟩ := q
    by_cases hk : k' = k
    · subst hk
      have h' : p ∈ (k', v) :: rest := by
        simpa [dictInsert] using h
      rcases List.mem_cons.mp h' with h2 | h2
      · right; exact h2
      · left; exact List.mem_cons_of_mem _ h2
    · have h' : p ∈ (k', v') :: dictInsert rest k v := by
        simpa [dictInsert, hk] using h
      rcases List.mem_cons.mp h' with h2 | h2
      · left; simp [h2]
      · rcases ih h2 with h3 | h3
        · left; exact List.mem_cons_of_mem _ h3
        · right; exact h3

theorem dictInsert_keys {κ α : Type} [DecidableEq κ]
    (m : List (κ × α)) (k : κ) (v : α) :
    (dictInsert m k v).map (·.1) =
      if k ∈ m.map (·.1) then m.map (·.1) else m.map (·.1) ++ [k] := by
  induction m with
  | nil => simp [dictInsert]
  | cons p rest ih =>
    obtain ⟨k', v'⟩ := p
    by_cases hk : k' = k
    · subst hk; simp [dictInsert]
    · simp only [dictInsert, if_neg hk, List.map_cons, ih, List.mem_cons]
      by_cases hm : k ∈ rest.map (·.1) <;> simp [hm, Ne.symm hk, hk]

theorem dictInsert_keys_nodup {κ α : Type} [DecidableEq κ]
    {m : List (κ × α)} (k : κ) (v : α) (h : (m.map (·.1)).Nodup) :
    ((dictInsert m k v).map (·.1)).Nodup := by
  rw [dictInsert_keys]
  by_cases hm : k ∈ m.map (·.1)
  · simpa [hm] using h
  · rw [if_neg hm]
    refine List.Nodup.append h (List.nodup_singleton k) ?_
    intro a ha hb
    rw [List.mem_singleton] at hb
    subst hb
    exact hm ha

theorem dictErase_sublist {κ α : Type} [DecidableEq κ]
    (m : List (κ × α)) (k : κ) :
    (dictErase m k).Sublist m := by
  induction m with
  | nil => simp [dictErase]
  | cons p rest ih =>
    obtain ⟨k', v'⟩ := p
    by_cases hk : k' = k
    · rw [dictErase, if_pos hk]
      exact (List.Sublist.refl rest).cons _
    · rw [dictErase, if_neg hk]
      exact ih.cons₂ _

theorem mem_dictErase {κ α : Type} [DecidableEq κ]
    {m : List (κ × α)} {k : κ} {p : κ × α} (h : p ∈ dictErase m k) :
    p ∈ m :=
  (dictErase_sublist m k).mem h

theorem dictErase_keys_nodup {κ α : Type} [DecidableEq κ]
    {m : List (κ × α)} (k : κ) (h : (m.map (·.1)).Nodup) :
    ((dictErase m k).map (·.1)).Nodup :=
  ((dictErase_sublist m k).map (·.1)).nodup h

theorem dictLookup_erase_self {κ α : Type} [DecidableEq κ]
    {m : List (κ × α)} (k : κ) (h : (m.map (·.1)).Nodup) :
    dictLookup (dictErase m k) k = none := by
  induction m with
  | nil => simp [dictErase, dictLookup]
  | cons p rest ih =>
    obtain ⟨k', v'⟩ := p
    simp only [List.map_cons, List.nodup_cons] at h
    by_cases hk : k' = k
    · subst hk
      rw [dictErase, if_pos rfl, dictLookup_eq_none_iff]
      exact h.1
    · rw [dictErase, if_neg hk, dictLookup, if_neg hk]
      exact ih h.2

theorem foldl_dictInsert_of_nodup {α : Type} (key : α → Int) :
    ∀ (l : List α) (acc : List (Int × α)),
      ((acc.map (·.1)) ++ l.map key).Nodup →
      l.foldl (fun ts x => dictInsert ts (key x) x) acc =
        acc ++ l.map (fun x => (key x, x))
  | [], acc, _ => by simp
  | x :: rest, acc, h => by
    rw [List.map_cons, List.append_cons] at h
    have hx : key x ∉ acc.map (·.1) := by
      intro hmem
      have hnd := (List.nodup_append.mp h).1
      rw [List.nodup_append] at hnd
      exact hnd.2.2 hmem (by simp)
    rw [List.foldl_cons, dictInsert_fresh x hx,
      foldl_dictInsert_of_nodup key rest (acc ++ [(key x, x)]) (by
        rw [List.map_append]
        simpa using h)]
    simp

/-! ## Serialization lemmas -/

theorem from_to_dict_id (t : Task) : (Task.from_dict t.to_dict).id = t.id := by
  unfold Task.to_dict Task.from_dict
  by_cases h1 : t.window_method = "process" <;>
    by_cases h2 : t.task_type = "prompt_handler" ∧ pyTruthyList t.options = true <;>
    simp [h1, h2]

/-- `load_tasks` on parsed data, split componentwise. -/
theorem load_fold_split :
    ∀ (data : List TaskDict) (m0 : TaskManager),
      (data.foldl
        (fun m d =>
          let task := Task.from_dict d
          { m with
              tasks := dictInsert m.tasks task.id task
              next_id := max m.next_id (task.id + 1) }) m0)
      = { m0 with
            tasks := data.foldl
              (fun ts d => dictInsert ts (Task.from_dict d).id (Task.from_dict d))
              m0.tasks
            next_id := data.foldl (fun n d => max n (d.id + 1)) m0.next_id }
  | [], _ => rfl
  | d :: rest, m0 => by
      rw [List.foldl_cons, load_fold_split rest _, List.foldl_cons, List.foldl_cons]
      rfl

theorem load_tasks_ok_eq (m : TaskManager) (data : List TaskDict) :
    m.load_tasks (some (.ok data)) =
      { m with
          tasks := data.foldl
            (fun ts d => dictInsert ts (Task.from_dict d).id (Task.from_dict d)) []
          next_id := data.foldl (fun n d => max n (d.id + 1)) m.next_id } :=
  load_fold_split data { m with tasks := [] }

theorem foldl_max_succ :
    ∀ (l : List Int) (n : Int),
      l.foldl (fun acc i => max acc (i + 1)) (n + 1) = (l.foldl max n) + 1
  | [], _ => rfl
  | i :: rest, n => by
      rw [List.foldl_cons, List.foldl_cons, ← foldl_max_succ rest (max n i)]
      congr 1
      exact max_add_add_right n i 1

/-! ## C9 -/

/-- C9, counterexample: `add_task` with a single-element options list creates a
prompt_handler task with only one option, refuting "at least 2 options". -/
theorem c9_counterexample :
    (TaskManager.add_task {} { options := some [⟨"Sim", "btn_sim"⟩] }).2.task_type
        = "prompt_handler"
    ∧ ¬ 2 ≤ ((TaskManager.add_task {}
        { options := some [⟨"Sim", "btn_sim"⟩] }).2.options.getD []).length := by
  decide

/-- C9 (amended): a task created by `add_task` is of MultiOption
(prompt_handler) type iff the `options` argument is a non-empty list; every
prompt_handler task so created has at least 1 option (not 2) and has
`repeat = true` regardless of the `repeat` argument; otherwise the task is a
simple task with no options. -/
theorem c9_prompt_shape_amended (m : TaskManager) (a : AddArgs) :
    ((m.add_task a).2.task_type = "prompt_handler" ↔ pyTruthyList a.options = true)
    ∧ ((m.add_task a).2.task_type = "prompt_handler" →
        (m.add_task a).2.«repeat» = true
        ∧ 1 ≤ ((m.add_task a).2.options.getD []).length)
    ∧ ((m.add_task a).2.task_type ≠ "prompt_handler" →
        (m.add_task a).2.task_type = "simple" ∧ (m.add_task a).2.options = none) := by
  have hs : ("simple" : String) ≠ "prompt_handler" := by decide
  by_cases h : pyTruthyList a.options = true
  · obtain ⟨l, hl, hne⟩ : ∃ l, a.options = some l ∧ l.isEmpty = false := by
      cases ha : a.options with
      | none => rw [ha] at h; simp [pyTruthyList] at h
      | some l =>
        rw [ha] at h
        simp only [pyTruthyList] at h
        exact ⟨l, rfl, by simpa using h⟩
    refine ⟨by simp [TaskManager.add_task, h],
      fun _ => ⟨by simp [TaskManager.add_task, h], ?_⟩,
      fun hne2 => absurd (by simp [TaskManager.add_task, h]) hne2⟩
    simp only [TaskManager.add_task, h, if_true, if_pos]
    rw [hl]
    cases l with
    | nil => simp at hne
    | cons x xs => simp
  · refine ⟨by simp [TaskManager.add_task, h, hs], fun hpt => ?_, fun _ => ?_⟩
    · exfalso
      simp only [TaskManager.add_task, h, if_false, if_neg] at hpt
      exact hs hpt
    · exact ⟨by simp [TaskManager.add_task, h], by simp [TaskManager.add_task, h]⟩

/-- C9, witness for the amended theorem at a two-option call. -/
theorem c9_witness :
    ((TaskManager.add_task {} { options := some [⟨"Sim", "s"⟩, ⟨"Nao", "n"⟩] }).2.«repeat»
        = true)
    ∧ 1 ≤ ((TaskManager.add_task {}
        { options := some [⟨"Sim", "s"⟩, ⟨"Nao", "n"⟩] }).2.options.getD []).length := by
  have h := c9_prompt_shape_amended {} { options := some [⟨"Sim", "s"⟩, ⟨"Nao", "n"⟩] }
  exact h.2.1 (h.1.mpr (by decide))

/-! ## C8 -/

/-- C8, counterexample: `load_tasks` keeps the pre-existing counter when it is
larger. A manager that has assigned ids 1 and 2 (`_next_id = 3`) loads a file
whose only task has id 1; the claim says the counter should become
`max(1) + 1 = 2` and the next `add_task` should assign 2, but the counter
stays 3 and the next id is 3. -/
theorem c8_counterexample :
    ((((TaskManager.add_task {} {}).1.add_task {}).1.load_tasks
        (some (.ok [{ id := 1 }]))).next_id = 3)
    ∧ maxIdOf [{ id := 1 }] + 1 = 2
    ∧ (((((TaskManager.add_task {} {}).1.add_task {}).1.load_tasks
        (some (.ok [{ id := 1 }]))).add_task {}).2.id ≠ 2) := by
  decide

/-- C8 (amended): `load_tasks` on parsed data replaces the in-memory task set
entirely with the file's tasks, and sets the counter to the maximum of its
previous value and `max(loaded id) + 1`; in particular on a fresh manager
(counter 1) the counter becomes `maxIdOf data + 1` and the next `add_task`
assigns exactly that id (for files with non-negative ids, `maxIdOf` is the
maximum loaded id). -/
theorem c8_load_counter_amended (m : TaskManager) (data : List TaskDict) :
    ((m.load_tasks (some (.ok data))).tasks =
        data.foldl (fun ts d => dictInsert ts (Task.from_dict d).id (Task.from_dict d)) [])
    ∧ ((m.load_tasks (some (.ok data))).next_id =
        data.foldl (fun n d => max n (d.id + 1)) m.next_id)
    ∧ (m.next_id = 1 →
        (m.load_tasks (some (.ok data))).next_id = maxIdOf data + 1
        ∧ (((m.load_tasks (some (.ok data))).add_task {}).2.id = maxIdOf data + 1)) := by
  refine ⟨by rw [load_tasks_ok_eq], by rw [load_tasks_ok_eq], fun hfresh => ?_⟩
  have hnext : (m.load_tasks (some (.ok data))).next_id = maxIdOf data + 1 := by
    rw [load_tasks_ok_eq]
    show data.foldl (fun n d => max n (d.id + 1)) m.next_id = maxIdOf data + 1
    calc data.foldl (fun n d => max n (d.id + 1)) m.next_id
        = (data.map (·.id)).foldl (fun acc i => max acc (i + 1)) (0 + 1) := by
          rw [hfresh]
          exact (List.foldl_map (fun d : TaskDict => d.id)
            (fun acc i => max acc (i + 1)) data (0 + 1)).symm
      _ = (data.map (·.id)).foldl max 0 + 1 := foldl_max_succ _ 0
      _ = maxIdOf data + 1 := rfl
  exact ⟨hnext, by rw [show (((m.load_tasks (some (.ok data))).add_task {}).2.id)
    = (m.load_tasks (some (.ok data))).next_id from rfl, hnext]⟩

/-- C8, witness: a fresh manager loading one task with id 4 gets counter 5. -/
theorem c8_witness :
    (TaskManager.load_tasks {} (some (.ok [{ id := 4 }]))).next_id = 5 := by
  have h := (c8_load_counter_amended {} [{ id := 4 }]).2.2 rfl
  rw [h.1]
  decide

/-! ## C6 -/

/-- Entries that parse are folded into the accumulator and the loop moves on. -/
theorem loadStatsEntries_good :
    ∀ (good : List (String × Except String TaskStats)) (acc : List (Int × TaskStats)),
      (∀ e ∈ good, entryParses e) →
      ∀ tail, loadStatsEntries (good ++ tail) acc
        = loadStatsEntries tail (loadStatsEntries good acc).1
  | [], _, _, _ => rfl
  | e :: rest, acc, h, tail => by
    obtain ⟨⟨ts, hts⟩, hk⟩ := h e (List.mem_cons_self e rest)
    obtain ⟨ki, hki⟩ := Option.isSome_iff_exists.mp hk
    obtain ⟨k, v⟩ := e
    simp only at hts hki
    subst hts
    rw [List.cons_append]
    simp only [loadStatsEntries, hki]
    exact loadStatsEntries_good rest _ (fun e he => h e (List.mem_cons_of_mem _ he)) tail

/-- A non-parsing entry aborts the loop, keeping the accumulator and
reporting the exception. -/
theorem loadStatsEntries_bad (bad : String × Except String TaskStats)
    (rest : List (String × Except String TaskStats))
    (acc : List (Int × TaskStats)) (hb : ¬ entryParses bad) :
    ∃ e, loadStatsEntries (bad :: rest) acc = (acc, some e) := by
  obtain ⟨k, v⟩ := bad
  cases v with
  | error e => exact ⟨e, by simp [loadStatsEntries]⟩
  | ok ts =>
    have hk : pyParseInt k = none := by
      cases hki : pyParseInt k with
      | none => rfl
      | some ki =>
        exact absurd ⟨⟨ts, rfl⟩, by simp [hki]⟩ hb
    exact ⟨"invalid literal for int", by simp [loadStatsEntries, hk]⟩

/-- C6, counterexample: in a stats file whose per-task entries are
(in order) a well-formed entry "1", a malformed entry "5" (its dict raises in
`TaskStats.from_dict`), and a well-formed entry "2", loading stops at the
malformed entry: task 1 is loaded but the well-formed entry for task 2 is
not, refuting "does not abort the loading of the remaining well-formed
entries". -/
theorem c6_counterexample :
    ((statsLoad (some (.ok statsFileCx))).stats = [(1, ({} : TaskStats))])
    ∧ (dictLookup (statsLoad (some (.ok statsFileCx))).stats 2 = none)
    ∧ entryParses ("2", .ok ({} : TaskStats)) := by
  refine ⟨by decide, by decide, ⟨{}, rfl⟩, by decide⟩

/-- C6 (amended): loading a missing stats file is a no-op; a malformed
per-task entry is caught by the single try/except around the whole load:
the exception is logged once, the entries before it stay loaded, and the
load aborts there — every entry after the malformed one (well-formed or not)
is skipped. -/
theorem c6_stats_load_amended :
    (statsLoad none = {})
    ∧ (∀ (good : List (String × Except String TaskStats))
          (bad : String × Except String TaskStats)
          (rest : List (String × Except String TaskStats)),
        (∀ e ∈ good, entryParses e) → ¬ entryParses bad →
        (statsLoad (some (.ok ({ tasks := some (good ++ bad :: rest) } : StatsFile)))).stats
            = (loadStatsEntries good []).1
        ∧ (statsLoad (some (.ok ({ tasks := some (good ++ bad :: rest) } : StatsFile)))).diag.length
            = 1
        ∧ (loadStatsEntries (good ++ bad :: rest) []).2.isSome = true) := by
  refine ⟨rfl, fun good bad rest hg hb => ?_⟩
  obtain ⟨e, he⟩ := loadStatsEntries_bad bad rest (loadStatsEntries good []).1 hb
  have hentries : loadStatsEntries (good ++ bad :: rest) []
      = ((loadStatsEntries good []).1, some e) := by
    rw [loadStatsEntries_good good [] hg (bad :: rest), he]
  refine ⟨?_, ?_, ?_⟩
  · show (statsLoad _).stats = _
    simp [statsLoad, hentries]
  · show (statsLoad _).diag.length = 1
    simp [statsLoad, hentries]
  · rw [hentries]
    rfl

/-- C6, witness for the amended theorem at a concrete file. -/
theorem c6_witness :
    (statsLoad (some (.ok ({ tasks := some ([("1", .ok {})] ++ ("5", .error "corrupt") :: [("2", .ok {})]) } : StatsFile)))).stats
      = (loadStatsEntries [("1", .ok ({} : TaskStats))] []).1 :=
  (c6_stats_load_amended.2 [("1", .ok {})] ("5", .error "corrupt") [("2", .ok {})]
    (by
      intro e he
      simp only [List.mem_singleton] at he
      subst he
      exact ⟨⟨{}, rfl⟩, by decide⟩)
    (by
      rintro ⟨⟨ts, hts⟩, -⟩
      cases hts)).1

/-! ## C5 -/

/-- C5: (i) for every task, `from_dict (to_dict t)` preserves the window
selector (method, title pattern, and for process method the process name,
title filter and window index), the action, the interval and the threshold;
(ii) saving a manager's tasks and loading the file into a fresh manager
reproduces exactly the round-tripped tasks, keyed by their ids; (iii) a
tasks JSON object without a "threshold" key loads with threshold 0.85;
(iv) loading a non-existent file leaves the task set unchanged (and, the
model being total, raises nothing). -/
theorem c5_roundtrip_and_defaults :
    (∀ t : Task,
      (Task.from_dict t.to_dict).window_method = t.window_method
      ∧ (Task.from_dict t.to_dict).window_title = t.window_title
      ∧ (Task.from_dict t.to_dict).action = t.action
      ∧ (Task.from_dict t.to_dict).interval = t.interval
      ∧ (Task.from_dict t.to_dict).threshold = t.threshold
      ∧ (t.window_method = "process" →
          (Task.from_dict t.to_dict).process_name = t.process_name
          ∧ (Task.from_dict t.to_dict).title_filter = t.title_filter
          ∧ (Task.from_dict t.to_dict).window_index = t.window_index))
    ∧ (∀ m : TaskManager, (m.tasks.map (fun p => p.2.id)).Nodup →
        (TaskManager.load_tasks {} (some (.ok m.save_tasks))).tasks
          = m.tasks.map fun p => (p.2.id, Task.from_dict p.2.to_dict))
    ∧ (∀ d : TaskDict, d.threshold = none → (Task.from_dict d).threshold = 0.85)
    ∧ (∀ m : TaskManager, m.load_tasks none = m) := by
  refine ⟨?_, ?_, ?_, fun _ => rfl⟩
  · intro t
    unfold Task.to_dict Task.from_dict
    by_cases h1 : t.window_method = "process" <;>
      by_cases h2 : t.task_type = "prompt_handler" ∧ pyTruthyList t.options = true <;>
      simp [h1, h2]
  · intro m hnd
    rw [(c8_load_counter_amended {} m.save_tasks).1]
    show (m.tasks.map fun p => p.2.to_dict).foldl
        (fun ts d => dictInsert ts (Task.from_dict d).id (Task.from_dict d)) []
      = m.tasks.map fun p => (p.2.id, Task.from_dict p.2.to_dict)
    have e1 := List.foldl_map (fun p : Int × Task => p.2.to_dict)
      (fun ts d => dictInsert ts (Task.from_dict d).id (Task.from_dict d))
      m.tasks ([] : List (Int × Task))
    have e2 := List.foldl_map (fun p : Int × Task => Task.from_dict p.2.to_dict)
      (fun ts t => dictInsert ts t.id t) m.tasks ([] : List (Int × Task))
    have hkeys : ((([] : List (Int × Task)).map (·.1))
        ++ (m.tasks.map fun p => Task.from_dict p.2.to_dict).map Task.id).Nodup := by
      simp only [List.map_nil, List.nil_append, List.map_map]
      have hcongr : (m.tasks.map (Task.id ∘ fun p : Int × Task => Task.from_dict p.2.to_dict))
          = m.tasks.map fun p => p.2.id :=
        List.map_congr_left fun p _ => from_to_dict_id p.2
      rw [hcongr]
      exact hnd
    have e3 := foldl_dictInsert_of_nodup Task.id
      (m.tasks.map fun p => Task.from_dict p.2.to_dict) [] hkeys
    have e4 : ([] : List (Int × Task))
        ++ (m.tasks.map fun p => Task.from_dict p.2.to_dict).map (fun t => (t.id, t))
        = m.tasks.map fun p => (p.2.id, Task.from_dict p.2.to_dict) := by
      rw [List.nil_append, List.map_map]
      refine List.map_congr_left fun p _ => ?_
      show ((Task.from_dict p.2.to_dict).id, Task.from_dict p.2.to_dict) = _
      rw [from_to_dict_id]
    exact e1.trans (e2.symm.trans (e3.trans e4))
  · intro d hd
    unfold Task.from_dict
    rw [hd]
    rfl

/-- C5, witness: round trip of the spec's scenario task and of a concrete
process-method task, plus the manager-level part at a one-task manager. -/
theorem c5_witness :
    ((Task.from_dict (Task.to_dict notepadProcTask)).process_name = "Code.exe")
    ∧ ((TaskManager.load_tasks {} (some (.ok notepadManager.save_tasks))).tasks
        = [(1, Task.from_dict (Task.to_dict notepadTask))])
    ∧ (Task.from_dict { id := 9 }).threshold = 0.85 := by
  refine ⟨((c5_roundtrip_and_defaults.1 notepadProcTask).2.2.2.2.2 rfl).1, ?_, ?_⟩
  · have h := c5_roundtrip_and_defaults.2.1 notepadManager (by decide)
    simpa [notepadManager] using h
  · exact c5_roundtrip_and_defaults.2.2.1 { id := 9 } rfl

/-! ## C2 -/

theorem dictLookup_insert_self {κ α : Type} [DecidableEq κ]
    (m : List (κ × α)) (k : κ) (v : α) :
    dictLookup (dictInsert m k v) k = some v := by
  induction m with
  | nil => simp [dictInsert, dictLookup]
  | cons p rest ih =>
    obtain ⟨k', v'⟩ := p
    by_cases hk : k' = k
    · rw [dictInsert, if_pos hk, dictLookup, if_pos hk]
    · rw [dictInsert, if_neg hk, dictLookup, if_neg hk]
      exact ih

/-- C2, counterexample: a non-repeating task is started, its worker runs one
tick (no window is found, so the loop breaks) and the worker thread
terminates; no worker is executing any loop, yet the task id is still in the
cancellation-signal map, so `is_task_running` answers true. -/
theorem c2_counterexample :
    ((execOps sysInit
        [.add { «repeat» := false }, .startSingle 1, .tick 0 false envNoWindows,
          .finish 0]).mgr.is_task_running 1 = true)
    ∧ ((execOps sysInit
        [.add { «repeat» := false }, .startSingle 1, .tick 0 false envNoWindows,
          .finish 0]).workers = []) := by
  constructor
  · decide
  · decide

/-- C2 (amended): membership in `task_threads` records "a worker was started
for this id and neither stop_single(id) nor stop() has run since", not live
execution: `start_single` on an existing, not-registered id registers it (and
is a no-op except for a log line when the id is already registered);
`stop_single` deregisters it and `stop` empties the map; but a worker exiting
on its own (`workerFinish`) and `remove_task` leave the map unchanged, so a
finished or removed task's id stays in the map until an explicit stop. -/
theorem c2_running_set_amended (s : SysState) (id : Int) (eid : Nat)
    (hnd : (s.mgr.task_threads.map (·.1)).Nodup) :
    (dictContains s.mgr.tasks id = true → s.mgr.is_task_running id = false →
        (s.start_single id).mgr.is_task_running id = true)
    ∧ (dictContains s.mgr.tasks id = true → s.mgr.is_task_running id = true →
        (s.start_single id) = { s with log := s.log ++ [.alreadyRunning id] })
    ∧ ((s.stop_single id).mgr.is_task_running id = false)
    ∧ ((s.stop).mgr.task_threads = [])
    ∧ ((s.workerFinish eid).mgr.task_threads = s.mgr.task_threads)
    ∧ ((s.remove_task id).mgr.task_threads = s.mgr.task_threads) := by
  refine ⟨?_, ?_, ?_, ?_, ?_, ?_⟩
  · intro hc hrun
    obtain ⟨t, hlk⟩ : ∃ t, dictLookup s.mgr.tasks id = some t := by
      rw [dictContains] at hc
      exact Option.isSome_iff_exists.mp hc
    have hnc : dictContains s.mgr.task_threads id = false := hrun
    show (dictLookup (s.start_single id).mgr.task_threads id).isSome = true
    simp only [SysState.start_single, hlk, hnc, Bool.false_eq_true, if_false]
    by_cases he : s.mgr.hasExecutor <;>
      simp [spawnWorker, he, dictLookup_insert_self]
  · intro hc hrun
    obtain ⟨t, hlk⟩ : ∃ t, dictLookup s.mgr.tasks id = some t := by
      rw [dictContains] at hc
      exact Option.isSome_iff_exists.mp hc
    have hc2 : dictContains s.mgr.task_threads id = true := hrun
    simp [SysState.start_single, hlk, hc2]
  · cases hlk : dictLookup s.mgr.task_threads id with
    | none =>
      show (dictLookup (s.stop_single id).mgr.task_threads id).isSome = false
      simp [SysState.stop_single, hlk]
    | some e =>
      show (dictLookup (s.stop_single id).mgr.task_threads id).isSome = false
      simp only [SysState.stop_single, hlk]
      split <;> simp [setEvent, dictLookup_erase_self id hnd]
  · rfl
  · unfold SysState.workerFinish
    cases hw : s.workers.find? (fun w => w.eventId = eid) with
    | none => rfl
    | some w =>
      by_cases hcond :
          (w.done || (dictLookup s.events w.eventId).getD false || !s.mgr.running) = true <;>
        simp [hcond]
  · unfold SysState.remove_task
    cases dictLookup s.mgr.task_threads id <;> rfl

/-- C2, witness for the amended theorem on a concrete one-task system. -/
theorem c2_witness :
    ((execOps sysInit [.add {}]).start_single 1).mgr.is_task_running 1 = true := by
  have h := c2_running_set_amended (execOps sysInit [.add {}]) 1 0 (by decide)
  exact h.1 (by decide) (by decide)

/-! ## C3 and C10: the prompt handler -/

theorem getD_mem_of_lt {α : Type} :
    ∀ (l : List α) (i : Nat) (d : α), i < l.length → l.getD i d ∈ l
  | [], _, _, h => absurd h (by simp)
  | x :: _, 0, d, _ => by simp [List.getD]
  | x :: xs, i + 1, d, h =>
      List.mem_cons_of_mem x (getD_mem_of_lt xs i d (by simpa using h))

theorem clampSelected_lt (i : Int) (n : Nat) (hn : 0 < n) :
    clampSelected i n < n := by
  unfold clampSelected
  split
  · exact hn
  · rename_i h
    push_neg at h
    omega

/-- The option-visibility loop: its `all_visible` flag is true exactly when
every option's template exists and is reported visible, and its list of
checked templates is all options with an existing template (no
short-circuit). -/
theorem promptCheckOptions_spec (env : TickEnv) (task : Task) (silent : Bool) :
    ∀ opts : List PromptOption,
      ((promptCheckOptions env task silent opts).1 = true ↔
        ∀ o ∈ opts, reportedVisible env task o)
      ∧ (promptCheckOptions env task silent opts).2.2.2.1
          = (opts.filter fun o => env.templateExists o.image).map (·.image)
  | [] => by simp [promptCheckOptions]
  | opt :: rest => by
    obtain ⟨ih1, ih2⟩ := promptCheckOptions_spec env task silent rest
    rcases hrec : promptCheckOptions env task silent rest with ⟨ra, rb, rc, rd, re⟩
    rw [hrec] at ih1 ih2
    simp only at ih1 ih2
    by_cases hex : env.templateExists opt.image = true
    · rcases hcv : check_template_visible env (task.hwnd.getD 0) opt.image task.threshold
        with ⟨vis, m⟩
      have hred : promptCheckOptions env task silent (opt :: rest)
          = (ra && vis, max m rb, (if vis then 1 else 0) + rc, opt.image :: rd, re) := by
        simp [promptCheckOptions, hex, hrec, hcv]
      rw [hred]
      constructor
      · simp only [Bool.and_eq_true]
        constructor
        · rintro ⟨h1, h2⟩ o ho
          rcases List.mem_cons.mp ho with rfl | ho2
          · exact ⟨hex, by rw [hcv]; exact h2⟩
          · exact (ih1.mp h1) o ho2
        · intro hall
          refine ⟨ih1.mpr fun o ho => hall o (List.mem_cons_of_mem _ ho), ?_⟩
          have h2 := (hall opt (List.mem_cons_self _ _)).2
          rw [hcv] at h2
          exact h2
      · simp [hex, ih2]
    · have hred : promptCheckOptions env task silent (opt :: rest)
          = (false, rb, rc, rd,
              (if silent then [] else [.optTemplateMissing task.id opt.image]) ++ re) := by
        simp [promptCheckOptions, hex, hrec]
      rw [hred]
      constructor
      · simp only [Bool.false_eq_true, false_iff]
        intro hall
        exact hex (hall opt (List.mem_cons_self _ _)).1
      · simp only
        rw [List.filter_cons_of_neg (by simpa using hex)]
        exact ih2

/-- The confirmed branch of `_run_prompt_handler`: all options visible. -/
theorem runPromptHandler_confirmed (env : TickEnv) (task : Task)
    (opts : List PromptOption) (ll : Option StatusKey) (silent : Bool)
    (hopts : task.options = some opts) (hne : opts ≠ [])
    (hall : ∀ o ∈ opts, reportedVisible env task o) :
    ((runPromptHandler env task false ll silent).2.2.clickCalls
        = [selectedImage task opts])
    ∧ ((runPromptHandler env task false ll silent).2.2.clicks =
        if (find_and_click env (task.hwnd.getD 0) (selectedImage task opts) task.action
            task.threshold).1 then [selectedImage task opts] else [])
    ∧ ((runPromptHandler env task false ll silent).1.1 =
        (find_and_click env (task.hwnd.getD 0) (selectedImage task opts) task.action
          task.threshold).1)
    ∧ ((runPromptHandler env task false ll silent).2.1 = none) := by
  have hlen : 0 < opts.length := List.length_pos.mpr hne
  have hselmem : opts.getD (clampSelected task.selected_option opts.length) ⟨"", ""⟩ ∈ opts :=
    getD_mem_of_lt opts _ _ (clampSelected_lt task.selected_option opts.length hlen)
  have hselex : env.templateExists (selectedImage task opts) = true :=
    (hall _ hselmem).1
  have hEmpty : opts.isEmpty = false := by
    cases opts with
    | nil => exact absurd rfl hne
    | cons a l => rfl
  have hav : (promptCheckOptions env task silent opts).1 = true :=
    (promptCheckOptions_spec env task silent opts).1.mpr hall
  rcases hchk : promptCheckOptions env task silent opts with ⟨av, bm, vc, chk, lg⟩
  have havt : av = true := by rw [hchk] at hav; exact hav
  subst havt
  rcases hfc : find_and_click env (task.hwnd.getD 0) (selectedImage task opts) task.action
      task.threshold with ⟨succ, msg, m⟩
  simp only [selectedImage, List.getD_eq_getElem?_getD] at hselex hfc
  refine ⟨?_, ?_, ?_, ?_⟩ <;>
  · simp only [runPromptHandler, hopts, hEmpty, hchk, selectedImage]
    simp [hselex, hfc]

/-- The unconfirmed branch of `_run_prompt_handler`: some option is not
reported visible, so no click call is made. -/
theorem runPromptHandler_not_confirmed (env : TickEnv) (task : Task)
    (opts : List PromptOption) (ll : Option StatusKey) (silent : Bool)
    (hopts : task.options = some opts) (hne : opts ≠ [])
    (hnall : ¬ ∀ o ∈ opts, reportedVisible env task o) :
    ((runPromptHandler env task false ll silent).2.2.clickCalls = [])
    ∧ ((runPromptHandler env task false ll silent).2.2.clicks = [])
    ∧ ((runPromptHandler env task false ll silent).1.1 = false) := by
  have hav : (promptCheckOptions env task silent opts).1 = false := by
    cases hv : (promptCheckOptions env task silent opts).1 with
    | false => rfl
    | true => exact absurd ((promptCheckOptions_spec env task silent opts).1.mp hv) hnall
  rcases hchk : promptCheckOptions env task silent opts with ⟨av, bm, vc, chk, lg⟩
  rw [hchk] at hav
  simp only at hav
  subst hav
  rw [runPromptHandler]
  simp only [hopts]
  rw [if_neg (by simpa using hne), if_neg (by simp)]
  simp only [hchk]
  by_cases h1 : vc > 0 ∧ ¬ silent = true
  · rw [if_pos h1]
    by_cases h2 : ll ≠ some (StatusKey.partVisible vc opts.length) <;> simp [h2]
  · rw [if_neg h1]
    simp

/-- C3: in MultiOption mode, per window and tick (one uncancelled
`_run_prompt_handler` call on a task with a non-empty option list, under the
same-instant assumption that the selected option's template is still found by
`find_and_click` whenever every option was just reported visible): a click is
performed iff all N options' templates are reported visible; on full
confirmation exactly the template at the (clamped) selected index is clicked
and no other; the matcher is invoked on every option whose template file
exists regardless of earlier failures (no short-circuit); and with any option
not reported visible (in particular N−1 of N visible) no click call is even
made. -/
theorem c3_multioption_all_or_nothing (env : TickEnv) (task : Task)
    (opts : List PromptOption) (ll : Option StatusKey) (silent : Bool)
    (hopts : task.options = some opts) (hne : opts ≠ [])
    (hstab : (∀ o ∈ opts, reportedVisible env task o) →
      (find_and_click env (task.hwnd.getD 0) (selectedImage task opts) task.action
        task.threshold).1 = true) :
    ((runPromptHandler env task false ll silent).2.2.clicks ≠ []
        ↔ ∀ o ∈ opts, reportedVisible env task o)
    ∧ ((∀ o ∈ opts, reportedVisible env task o) →
        (runPromptHandler env task false ll silent).2.2.clicks
          = [selectedImage task opts])
    ∧ ((promptCheckOptions env task silent opts).2.2.2.1
        = (opts.filter fun o => env.templateExists o.image).map (·.image))
    ∧ (¬ (∀ o ∈ opts, reportedVisible env task o) →
        (runPromptHandler env task false ll silent).2.2.clickCalls = []
        ∧ (runPromptHandler env task false ll silent).2.2.clicks = []) := by
  by_cases hall : ∀ o ∈ opts, reportedVisible env task o
  · obtain ⟨-, hclicks, -, -⟩ :=
      runPromptHandler_confirmed env task opts ll silent hopts hne hall
    have hcl : (runPromptHandler env task false ll silent).2.2.clicks
        = [selectedImage task opts] := by
      rw [hclicks, if_pos (hstab hall)]
    exact ⟨⟨fun _ => hall, fun _ => by simp [hcl]⟩, fun _ => hcl,
      (promptCheckOptions_spec env task silent opts).2, fun hn => absurd hall hn⟩
  · obtain ⟨hcalls, hclicks, -⟩ :=
      runPromptHandler_not_confirmed env task opts ll silent hopts hne hall
    exact ⟨⟨fun hc => absurd hclicks hc, fun h => absurd h hall⟩,
      fun h => absurd h hall,
      (promptCheckOptions_spec env task silent opts).2,
      fun _ => ⟨hcalls, hclicks⟩⟩

/-- C3, witness: two options both visible, selection index 1: exactly
"btn_nao" is clicked; the checked-template list covers both options. -/
theorem c3_witness :
    ((runPromptHandler envAllVisible promptTask false none).2.2.clicks = ["btn_nao"])
    ∧ ((promptCheckOptions envAllVisible promptTask false optsSimNao).2.2.2.1
        = ["btn_sim", "btn_nao"]) := by
  have h := c3_multioption_all_or_nothing envAllVisible promptTask optsSimNao none false
    rfl (by decide) (fun _ => by decide)
  refine ⟨?_, ?_⟩
  · have := h.2.1 (by
      intro o ho
      refine ⟨rfl, ?_⟩
      simp [check_template_visible, envAllVisible, pyTry])
    simpa [selectedImage] using this
  · rw [h.2.2.1]
    decide

/-- C10: if a prompt_handler task's `selected_option` is out of range
(negative or ≥ number of options) at the moment of full confirmation, the
loop neither fails nor skips: the clamp makes the selected index 0 and
`find_and_click` is invoked exactly on option 0's template; when that call
reports success, option 0 is the one clicked. -/
theorem c10_out_of_range_fallback (env : TickEnv) (task : Task)
    (opts : List PromptOption) (ll : Option StatusKey) (silent : Bool)
    (hopts : task.options = some opts) (hne : opts ≠ [])
    (hoor : task.selected_option < 0 ∨ (opts.length : Int) ≤ task.selected_option)
    (hall : ∀ o ∈ opts, reportedVisible env task o) :
    (clampSelected task.selected_option opts.length = 0)
    ∧ ((runPromptHandler env task false ll silent).2.2.clickCalls
        = [(opts.head hne).image])
    ∧ ((find_and_click env (task.hwnd.getD 0) (opts.head hne).image task.action
          task.threshold).1 = true →
        (runPromptHandler env task false ll silent).2.2.clicks
          = [(opts.head hne).image]) := by
  have hclamp : clampSelected task.selected_option opts.length = 0 := by
    unfold clampSelected
    rw [if_pos hoor]
  have hsel : selectedImage task opts = (opts.head hne).image := by
    rw [selectedImage, hclamp]
    cases opts with
    | nil => exact absurd rfl hne
    | cons a l => rfl
  obtain ⟨hcalls, hclicks, -, -⟩ :=
    runPromptHandler_confirmed env task opts ll silent hopts hne hall
  refine ⟨hclamp, by rw [hcalls, hsel], fun hsucc => ?_⟩
  rw [hclicks, hsel, if_pos hsucc]

/-- C10, witness: `selected_option = 5` with 2 options clicks "btn_sim". -/
theorem c10_witness :
    (clampSelected promptTaskOOR.selected_option optsSimNao.length = 0)
    ∧ ((runPromptHandler envAllVisible promptTaskOOR false none).2.2.clicks
        = ["btn_sim"]) := by
  have h := c10_out_of_range_fallback envAllVisible promptTaskOOR optsSimNao none false
    rfl (by decide) (by right; decide)
    (by
      intro o ho
      refine ⟨rfl, ?_⟩
      simp [check_template_visible, envAllVisible, pyTry])
  exact ⟨h.1, h.2.2 (by decide)⟩

/-! ## C1: the worker loop contains its errors -/

/-- If the raw window enumeration raises, both selector methods resolve to no
windows: the exception is caught inside `get_windows` /
`get_windows_by_process` and downgraded to an empty listing. -/
theorem findAllWindows_of_cgError (env : TickEnv) (task : Task)
    (h : ∀ b, ∃ msg, env.cgList b = .error msg) :
    task.findAllWindows env = [] := by
  obtain ⟨e1, he1⟩ := h true
  unfold Task.findAllWindows
  split
  · unfold find_all_windows_by_process get_windows_by_process
    simp [getAllWindowsInfo, he1, pyTry]
  · unfold find_all_windows_by_title get_windows
    simp [getAllWindowsInfo, he1, pyTry]

theorem Eff.logs_append (a b : Eff) : (a ++ b).logs = a.logs ++ b.logs := rfl

theorem Eff.statuses_append (a b : Eff) : (a ++ b).statuses = a.statuses ++ b.statuses := rfl

theorem Eff.clicks_append (a b : Eff) : (a ++ b).clicks = a.clicks ++ b.clicks := rfl

theorem Eff.execs_append (a b : Eff) : (a ++ b).execs = a.execs ++ b.execs := rfl

theorem runSimpleTask_execs (env : TickEnv) (t : Task) (silent : Bool) :
    (runSimpleTask env t silent).2.execs = [] := by
  unfold runSimpleTask
  split
  · split <;> rfl
  · rfl

theorem runPromptHandler_execs (env : TickEnv) (task : Task) (stop : Bool)
    (ll : Option StatusKey) (silent : Bool) :
    (runPromptHandler env task stop ll silent).2.2.execs = [] := by
  unfold runPromptHandler
  repeat first
    | rfl
    | split
    | dsimp only

theorem scanWindows_execs (env : TickEnv) :
    ∀ (stop : Bool) (ws : List Int) (task : Task) (ll : Option StatusKey) (best : Rat),
      (scanWindows env stop ws task ll best).2.2.2.2.execs = []
  | _, [], _, _, _ => rfl
  | true, _ :: _, task, ll, best => by
    unfold scanWindows
    simp
  | false, hwnd :: rest, task, ll, best => by
    unfold scanWindows
    simp only [Bool.false_eq_true, if_false]
    split
    · rcases hph : runPromptHandler env { task with hwnd := some hwnd } false ll
        with ⟨⟨found, m⟩, ll', eff⟩
      have heff : eff.execs = [] := by
        have := runPromptHandler_execs env { task with hwnd := some hwnd } false ll false
        rw [hph] at this
        exact this
      by_cases hfound : found = true
      · simp [hph, hfound, heff]
      · rcases hrest : scanWindows env false rest { task with hwnd := some hwnd } ll'
          (if m > best then m else best) with ⟨t', ll'', f, b, eff'⟩
        have heff' : eff'.execs = [] := by
          have := scanWindows_execs env false rest { task with hwnd := some hwnd } ll'
            (if m > best then m else best)
          rw [hrest] at this
          exact this
        simp [hph, hfound, hrest, Eff.execs_append, heff, heff']
    · rcases hst : runSimpleTask env { task with hwnd := some hwnd }
        with ⟨⟨found, m⟩, eff⟩
      have heff : eff.execs = [] := by
        have := runSimpleTask_execs env { task with hwnd := some hwnd } false
        rw [hst] at this
        exact this
      by_cases hfound : found = true
      · simp [hst, hfound, heff]
      · rcases hrest : scanWindows env false rest { task with hwnd := some hwnd } ll
          (if m > best then m else best) with ⟨t', ll'', f, b, eff'⟩
        have heff' : eff'.execs = [] := by
          have := scanWindows_execs env false rest { task with hwnd := some hwnd } ll
            (if m > best then m else best)
          rw [hrest] at this
          exact this
        simp [hst, hfound, hrest, Eff.execs_append, heff, heff']

/-- `_run_prompt_handler` never writes the "window_not_found" dedup key. -/
theorem runPromptHandler_lastLog (env : TickEnv) (task : Task) (stop : Bool)
    (ll : Option StatusKey) (silent : Bool) (h : ll ≠ some StatusKey.windowNotFound) :
    (runPromptHandler env task stop ll silent).2.1 ≠ some StatusKey.windowNotFound := by
  unfold runPromptHandler
  repeat first
    | exact h
    | split
    | dsimp only
    | simp

theorem scanWindows_lastLog (env : TickEnv) :
    ∀ (stop : Bool) (ws : List Int) (task : Task) (ll : Option StatusKey) (best : Rat),
      ll ≠ some StatusKey.windowNotFound →
      (scanWindows env stop ws task ll best).2.1 ≠ some StatusKey.windowNotFound
  | _, [], _, _, _, h => h
  | true, _ :: _, task, ll, best, h => by
    unfold scanWindows
    simpa using h
  | false, hwnd :: rest, task, ll, best, h => by
    unfold scanWindows
    simp only [Bool.false_eq_true, if_false]
    split
    · rcases hph : runPromptHandler env { task with hwnd := some hwnd } false ll
        with ⟨⟨found, m⟩, ll', eff⟩
      have hll' : ll' ≠ some StatusKey.windowNotFound := by
        have := runPromptHandler_lastLog env { task with hwnd := some hwnd } false ll false h
        rw [hph] at this
        exact this
      by_cases hfound : found = true
      · simp only [hph, hfound, if_true]
        simpa using hll'
      · rcases hrest : scanWindows env false rest { task with hwnd := some hwnd } ll'
          (if m > best then m else best) with ⟨t', ll'', f, b, eff'⟩
        have hll'' : ll'' ≠ some StatusKey.windowNotFound := by
          have := scanWindows_lastLog env false rest { task with hwnd := some hwnd } ll'
            (if m > best then m else best) hll'
          rw [hrest] at this
          exact this
        simp only [hph, hfound, Bool.false_eq_true, if_false, hrest]
        simpa using hll''
    · rcases hst : runSimpleTask env { task with hwnd := some hwnd }
        with ⟨⟨found, m⟩, eff⟩
      by_cases hfound : found = true
      · simp only [hst, hfound, if_true]
        simpa using h
      · rcases hrest : scanWindows env false rest { task with hwnd := some hwnd } ll
          (if m > best then m else best) with ⟨t', ll'', f, b, eff'⟩
        have hll'' : ll'' ≠ some StatusKey.windowNotFound := by
          have := scanWindows_lastLog env false rest { task with hwnd := some hwnd } ll
            (if m > best then m else best) h
          rw [hrest] at this
          exact this
        simp only [hst, hfound, Bool.false_eq_true, if_false, hrest]
        simpa using hll''

/-- The no-window branch of one `_run_task` iteration: status "Janela?", a
"window not found" log exactly on the transition into the not-found state,
the dedup key set, no execution record, and exit only for non-repeating
tasks. -/
theorem runTaskTick_noWindow (env : TickEnv) (stop : Bool) (task : Task)
    (ll : Option StatusKey) (he : task.findAllWindows env = []) :
    ((runTaskTick env stop task ll).outcome
        = if ¬ task.«repeat» then TickOutcome.exitNoWindow else TickOutcome.contBackoff)
    ∧ ((runTaskTick env stop task ll).task.last_status = .janela)
    ∧ ((runTaskTick env stop task ll).eff.execs = [])
    ∧ (ll ≠ some StatusKey.windowNotFound →
        countNotFoundLogs (runTaskTick env stop task ll).eff.logs = 1)
    ∧ (ll = some StatusKey.windowNotFound →
        countNotFoundLogs (runTaskTick env stop task ll).eff.logs = 0)
    ∧ ((runTaskTick env stop task ll).lastLog = some StatusKey.windowNotFound)
    ∧ ((runTaskTick env stop task ll).task = { task with last_status := .janela }) := by
  have he' : (Task.findAllWindows task env).isEmpty = true := by rw [he]; rfl
  unfold runTaskTick
  simp only [he', if_true]
  by_cases hll : ll ≠ some StatusKey.windowNotFound
  · simp only [if_pos hll]
    refine ⟨?_, ?_, ?_, fun _ => ?_, fun h => absurd h hll, ?_, ?_⟩ <;>
      first
        | trivial
        | by_cases hm : task.window_method = "process" <;>
            simp [hm, countNotFoundLogs, Eff.logs_append]
  · simp only [if_neg hll]
    rw [not_not] at hll
    refine ⟨?_, ?_, ?_, fun h => absurd hll h, fun _ => ?_, ?_, ?_⟩ <;> trivial

/-- The windows-found branch of one `_run_task` iteration: an `on_execution`
record and a percentage status are always reported, the dedup key is
re-armed, and exit happens only for non-repeating tasks ("single execution
finished"). -/
theorem runTaskTick_windows (env : TickEnv) (stop : Bool) (task : Task)
    (ll : Option StatusKey) (he : task.findAllWindows env ≠ []) :
    ((runTaskTick env stop task ll).outcome
        = if ¬ task.«repeat» then TickOutcome.exitSingleDone else TickOutcome.contInterval)
    ∧ ((runTaskTick env stop task ll).eff.execs
        = [(task.id, (runTaskTick env stop task ll).found)])
    ∧ ((task.id, StatusVal.pct (runTaskTick env stop task ll).matchVal)
        ∈ (runTaskTick env stop task ll).eff.statuses)
    ∧ ((runTaskTick env stop task ll).lastLog ≠ some StatusKey.windowNotFound) := by
  have he' : (Task.findAllWindows task env).isEmpty = false := by
    cases hfw : task.findAllWindows env with
    | nil => exact absurd hfw he
    | cons a l => rfl
  unfold runTaskTick
  simp only [he', Bool.false_eq_true, if_false]
  have hll0 : (if ll = some StatusKey.windowNotFound then none else ll)
      ≠ some StatusKey.windowNotFound := by
    split
    · simp
    · assumption
  rcases hscan : scanWindows env stop (task.findAllWindows env) task
      (if ll = some StatusKey.windowNotFound then none else ll) 0
    with ⟨t', ll1, success, m, effScan⟩
  have hexecs : effScan.execs = [] := by
    have := scanWindows_execs env stop (task.findAllWindows env) task
      (if ll = some StatusKey.windowNotFound then none else ll) 0
    rw [hscan] at this
    exact this
  have hll1 : ll1 ≠ some StatusKey.windowNotFound := by
    have := scanWindows_lastLog env stop (task.findAllWindows env) task
      (if ll = some StatusKey.windowNotFound then none else ll) 0 hll0
    rw [hscan] at this
    exact this
  simp only [hscan]
  refine ⟨?_, ?_, ?_, ?_⟩
  · trivial
  · simp only [Eff.execs_append, hexecs]
    split <;> simp
  · simp only [Eff.statuses_append]
    simp
  · simpa using hll1

/-- C1, counterexample: with the task's window found and the matcher raising,
`find_and_click` catches the exception into `(False, str(e), 0.0)`,
`_run_simple_task` discards that message and logs only on success, and
`_run_task` logs nothing for a failed tick: the iteration emits a percentage
status string and a failed execution record but not a single log line —
refuting "converted into a status string and a log line" for matcher
exceptions. -/
theorem c1_counterexample :
    simpleRepTask.findAllWindows envMatcherRaise = [7]
    ∧ find_and_click envMatcherRaise 7 "save_btn" "click" simpleRepTask.threshold
        = (false, "cv2 assertion failed", 0)
    ∧ (runTaskTick envMatcherRaise false simpleRepTask none).eff.logs = []
    ∧ (runTaskTick envMatcherRaise false simpleRepTask none).eff.execs
        = [(1, false)]
    ∧ (1, StatusVal.pct 0)
        ∈ (runTaskTick envMatcherRaise false simpleRepTask none).eff.statuses := by
  refine ⟨by decide, rfl, by decide, by decide, by decide⟩

/-- C1 (amended): over every oracle environment (including ones whose window
enumeration or matcher calls raise) and every cancellation reading, one
iteration of the `_run_task` worker loop terminates the loop only in the two
documented cases — no window found for a non-repeating task, or a
non-repeating task's single execution finishing — and a repeating task's
iteration always continues (to the 2s backoff or the interval wait).
Window-resolution exceptions are absorbed into the empty window list, which
is converted into the "Janela?" status string and (on the state transition)
one "window not found" log line; matcher exceptions and missing-template
failures leave the iteration reporting a failed execution record and a
percentage status string — but, unlike window-resolution failures, a matcher
exception produces no log line (see `c1_counterexample`). In the model every
iteration yields a normal result by construction, so no exception reaches
`start`/`start_single` (whose executor would also absorb it). -/
theorem c1_error_containment_amended (env : TickEnv) (stop : Bool) (task : Task)
    (ll : Option StatusKey) :
    ((runTaskTick env stop task ll).outcome = .exitNoWindow →
        task.«repeat» = false ∧ task.findAllWindows env = [])
    ∧ ((runTaskTick env stop task ll).outcome = .exitSingleDone →
        task.«repeat» = false ∧ task.findAllWindows env ≠ [])
    ∧ (task.«repeat» = true →
        (runTaskTick env stop task ll).outcome = .contBackoff
        ∨ (runTaskTick env stop task ll).outcome = .contInterval)
    ∧ ((∀ b, ∃ msg, env.cgList b = .error msg) →
        task.findAllWindows env = []
        ∧ (runTaskTick env stop task ll).task.last_status = .janela
        ∧ (ll ≠ some StatusKey.windowNotFound →
            countNotFoundLogs (runTaskTick env stop task ll).eff.logs = 1))
    ∧ (task.findAllWindows env ≠ [] →
        (runTaskTick env stop task ll).eff.execs
          = [(task.id, (runTaskTick env stop task ll).found)]
        ∧ (task.id, StatusVal.pct (runTaskTick env stop task ll).matchVal)
            ∈ (runTaskTick env stop task ll).eff.statuses) := by
  by_cases he : task.findAllWindows env = []
  · obtain ⟨hout, hstat, hexe, hcount1, -, -, -⟩ :=
      runTaskTick_noWindow env stop task ll he
    refine ⟨fun hnw => ⟨?_, he⟩, fun hdone => ?_, fun hrep => ?_,
      fun _ => ⟨he, hstat, hcount1⟩, fun hne => absurd he hne⟩
    · by_cases hr : task.«repeat» = true
      · rw [hout, if_neg (by simp [hr])] at hnw
        exact absurd hnw (by simp)
      · simpa using hr
    · rw [hout] at hdone
      split at hdone <;> simp at hdone
    · left
      rw [hout, if_neg (by simp [hrep])]
  · obtain ⟨hout, hexe, hmem, -⟩ := runTaskTick_windows env stop task ll he
    refine ⟨fun hnw => ?_, fun hdone => ⟨?_, he⟩, fun hrep => ?_,
      fun hraise => absurd (findAllWindows_of_cgError env task hraise) he,
      fun _ => ⟨hexe, hmem⟩⟩
    · rw [hout] at hnw
      split at hnw <;> simp at hnw
    · by_cases hr : task.«repeat» = true
      · rw [hout, if_neg (by simp [hr])] at hdone
        exact absurd hdone (by simp)
      · simpa using hr
    · right
      rw [hout, if_neg (by simp [hrep])]

/-- C1, witness: a raising environment on a repeating task — the iteration
continues into the backoff wait and the failure is one status and one log. -/
theorem c1_witness :
    (simpleRepTask.«repeat» = true
      ∧ ((runTaskTick envAllRaise false simpleRepTask none).outcome = .contBackoff
        ∨ (runTaskTick envAllRaise false simpleRepTask none).outcome = .contInterval))
    ∧ simpleRepTask.findAllWindows envAllRaise = []
    ∧ (runTaskTick envAllRaise false simpleRepTask none).task.last_status = .janela
    ∧ countNotFoundLogs (runTaskTick envAllRaise false simpleRepTask none).eff.logs = 1 := by
  have h := c1_error_containment_amended envAllRaise false simpleRepTask none
  have h4 := h.2.2.2.1 (fun b => ⟨"Quartz failure", rfl⟩)
  exact ⟨⟨rfl, h.2.2.1 rfl⟩, h4.1, h4.2.1, h4.2.2 (by simp)⟩

/-! ## C7: "window not found" is logged once per transition -/

theorem countNotFoundLogs_append (a b : List LogMsg) :
    countNotFoundLogs (a ++ b) = countNotFoundLogs a + countNotFoundLogs b := by
  unfold countNotFoundLogs
  rw [List.filter_append, List.length_append]

/-- `find_all_windows` only reads the selector fields, so a status write does
not change its result. -/
theorem findAllWindows_set_status (t : Task) (v : StatusVal) (env : TickEnv) :
    Task.findAllWindows { t with last_status := v } env = t.findAllWindows env := rfl

/-- Once the dedup key is set, further no-window iterations log nothing. -/
theorem c7_aux (envs : Nat → TickEnv) :
    ∀ (n i : Nat) (t : Task) (ll : Option StatusKey),
      ll = some StatusKey.windowNotFound →
      (∀ j, j < n → t.findAllWindows (envs (i + j)) = []) →
      countNotFoundLogs (runTickSeqAux envs i n t ll).2.2 = 0
  | 0, _, _, _, _, _ => rfl
  | n + 1, i, t, ll, hll, hw => by
    subst hll
    have hw0 : t.findAllWindows (envs i) = [] := by
      simpa using hw 0 (Nat.succ_pos n)
    obtain ⟨-, -, -, -, hcount0, hlast, htask⟩ :=
      runTaskTick_noWindow (envs i) false t (some StatusKey.windowNotFound) hw0
    show countNotFoundLogs
      ((runTaskTick (envs i) false t (some StatusKey.windowNotFound)).eff.logs
        ++ (runTickSeqAux envs (i + 1) n
              (runTaskTick (envs i) false t (some StatusKey.windowNotFound)).task
              (runTaskTick (envs i) false t (some StatusKey.windowNotFound)).lastLog).2.2) = 0
    rw [countNotFoundLogs_append, hcount0 rfl, hlast, htask]
    rw [c7_aux envs n (i + 1) { t with last_status := .janela }
      (some StatusKey.windowNotFound) rfl
      (fun j hj => by
        rw [findAllWindows_set_status]
        have := hw (j + 1) (by omega)
        rw [show i + (j + 1) = i + 1 + j by omega] at this
        exact this)]

/-- C7: for a running repeating task whose selector matches zero windows on
`n ≥ 2` consecutive iterations, starting outside the not-found state, exactly
one "window not found" log line is emitted across those iterations; an
iteration that finds windows leaves the dedup key re-armed (not
"window_not_found"), and `stop_single` on a running task clears the task's
dedup memory, so the message can be logged again. -/
theorem c7_notfound_log_dedup (envs : Nat → TickEnv) (task : Task) (n : Nat)
    (ll : Option StatusKey)
    (_hrep : task.«repeat» = true)
    (hn : 2 ≤ n)
    (hw : ∀ i, i < n → task.findAllWindows (envs i) = [])
    (harm : ll ≠ some StatusKey.windowNotFound) :
    (countNotFoundLogs (runTickSeq envs n task ll).2.2 = 1)
    ∧ (∀ (env' : TickEnv) (t' : Task) (ll' : Option StatusKey),
        t'.findAllWindows env' ≠ [] →
        (runTaskTick env' false t' ll').lastLog ≠ some StatusKey.windowNotFound)
    ∧ (∀ (s : SysState) (id : Int),
        (s.mgr.last_log_status.map (·.1)).Nodup →
        dictContains s.mgr.task_threads id = true →
        dictLookup (s.stop_single id).mgr.last_log_status id = none) := by
  refine ⟨?_, ?_, ?_⟩
  · cases n with
    | zero => omega
    | succ k =>
      have hw0 : task.findAllWindows (envs 0) = [] := hw 0 (Nat.succ_pos k)
      obtain ⟨-, -, -, hcount1, -, hlast, htask⟩ :=
        runTaskTick_noWindow (envs 0) false task ll hw0
      show countNotFoundLogs
        ((runTaskTick (envs 0) false task ll).eff.logs
          ++ (runTickSeqAux envs 1 k (runTaskTick (envs 0) false task ll).task
                (runTaskTick (envs 0) false task ll).lastLog).2.2) = 1
      rw [countNotFoundLogs_append, hcount1 harm, hlast, htask]
      rw [c7_aux envs k 1 { task with last_status := .janela }
        (some StatusKey.windowNotFound) rfl
        (fun j hj => by
          rw [findAllWindows_set_status]
          exact hw (1 + j) (by omega))]
  · exact fun env' t' ll' hne => (runTaskTick_windows env' false t' ll' hne).2.2.2
  · intro s id hnd hc
    obtain ⟨eid, hlk⟩ : ∃ eid, dictLookup s.mgr.task_threads id = some eid :=
      Option.isSome_iff_exists.mp hc
    simp only [SysState.stop_single, hlk]
    split <;> exact dictLookup_erase_self id hnd

/-- C7, witness: two consecutive no-window iterations of a repeating task
produce exactly one "window not found" log line. -/
theorem c7_witness :
    countNotFoundLogs (runTickSeq (fun _ => envNoWindows) 2 simpleRepTask none).2.2 = 1 :=
  (c7_notfound_log_dedup (fun _ => envNoWindows) simpleRepTask 2 none rfl (by decide)
    (fun i _ => (by decide : simpleRepTask.findAllWindows envNoWindows = [])) (by simp)).1

/-! ## C4: id uniqueness and monotonicity -/

/-- The window scan only rewrites `task.hwnd`, never its id. -/
theorem scanWindows_id (env : TickEnv) :
    ∀ (stop : Bool) (ws : List Int) (t : Task) (ll : Option StatusKey) (best : Rat),
      (scanWindows env stop ws t ll best).1.id = t.id
  | _, [], _, _, _ => rfl
  | true, _ :: _, t, ll, best => by
    unfold scanWindows
    simp
  | false, hwnd :: rest, t, ll, best => by
    unfold scanWindows
    simp only [Bool.false_eq_true, if_false]
    split
    · rcases hph : runPromptHandler env { t with hwnd := some hwnd } false ll
        with ⟨⟨found, m⟩, ll', eff⟩
      by_cases hfound : found = true
      · simp [hph, hfound]
      · rcases hrest : scanWindows env false rest { t with hwnd := some hwnd } ll'
          (if m > best then m else best) with ⟨t', ll'', f, b, eff'⟩
        have hid := scanWindows_id env false rest { t with hwnd := some hwnd } ll'
          (if m > best then m else best)
        rw [hrest] at hid
        simp only [hph, hfound, Bool.false_eq_true, if_false, hrest]
        exact hid
    · rcases hst : runSimpleTask env { t with hwnd := some hwnd }
        with ⟨⟨found, m⟩, eff⟩
      by_cases hfound : found = true
      · simp [hst, hfound]
      · rcases hrest : scanWindows env false rest { t with hwnd := some hwnd } ll
          (if m > best then m else best) with ⟨t', ll'', f, b, eff'⟩
        have hid := scanWindows_id env false rest { t with hwnd := some hwnd } ll
          (if m > best then m else best)
        rw [hrest] at hid
        simp only [hst, hfound, Bool.false_eq_true, if_false, hrest]
        exact hid

/-- One loop iteration only rewrites `hwnd` and `last_status`: the id stays. -/
theorem runTaskTick_id (env : TickEnv) (stop : Bool) (t : Task)
    (ll : Option StatusKey) : (runTaskTick env stop t ll).task.id = t.id := by
  by_cases he : t.findAllWindows env = []
  · rw [(runTaskTick_noWindow env stop t ll he).2.2.2.2.2.2]
  · have he' : (Task.findAllWindows t env).isEmpty = false := by
      cases hfw : t.findAllWindows env with
      | nil => exact absurd hfw he
      | cons a l => rfl
    unfold runTaskTick
    simp only [he', Bool.false_eq_true, if_false]
    rcases hscan : scanWindows env stop (t.findAllWindows env) t
        (if ll = some StatusKey.windowNotFound then none else ll) 0
      with ⟨t', ll1, success, m, effScan⟩
    have hid := scanWindows_id env stop (t.findAllWindows env) t
      (if ll = some StatusKey.windowNotFound then none else ll) 0
    rw [hscan] at hid
    simpa [hscan] using hid

theorem start_fold_mgr_core :
    ∀ (l : List (Int × Task)) (s : SysState),
      ((l.foldl (fun s p =>
          let s := spawnWorker s p.2.id p.1 p.2
          { s with log := s.log ++ [.taskStarted p.2.id] }) s).mgr.tasks
        = s.mgr.tasks)
      ∧ ((l.foldl (fun s p =>
          let s := spawnWorker s p.2.id p.1 p.2
          { s with log := s.log ++ [.taskStarted p.2.id] }) s).mgr.next_id
        = s.mgr.next_id)
  | [], _ => ⟨rfl, rfl⟩
  | _ :: rest, _ => start_fold_mgr_core rest _

theorem setEvent_fold_mgr :
    ∀ (l : List (Int × Nat)) (s : SysState),
      (l.foldl (fun s p => setEvent s p.2) s).mgr = s.mgr
  | [], _ => rfl
  | _ :: rest, _ => setEvent_fold_mgr rest _

theorem foldl_max_id_init_le :
    ∀ (data : List TaskDict) (n : Int),
      n ≤ data.foldl (fun n d => max n (d.id + 1)) n
  | [], _ => le_refl _
  | d :: rest, n =>
      le_trans (le_max_left n (d.id + 1)) (foldl_max_id_init_le rest _)

theorem foldl_max_id_mem :
    ∀ (data : List TaskDict) (n : Int) (d : TaskDict), d ∈ data →
      d.id + 1 ≤ data.foldl (fun n d => max n (d.id + 1)) n
  | [], _, _, hd => absurd hd (by simp)
  | d0 :: rest, n, d, hd => by
    rcases List.mem_cons.mp hd with rfl | hd2
    · exact le_trans (le_max_right n (d.id + 1)) (foldl_max_id_init_le rest _)
    · exact foldl_max_id_mem rest _ d hd2

theorem mem_foldl_dictInsert :
    ∀ (data : List TaskDict) (acc : List (Int × Task)) (p : Int × Task),
      p ∈ data.foldl
        (fun ts d => dictInsert ts (Task.from_dict d).id (Task.from_dict d)) acc →
      p ∈ acc ∨ ∃ d ∈ data, p = ((Task.from_dict d).id, Task.from_dict d)
  | [], _, _, hp => Or.inl hp
  | d0 :: rest, acc, p, hp => by
    rcases mem_foldl_dictInsert rest _ p hp with hp2 | ⟨d, hd, rfl⟩
    · rcases mem_dictInsert hp2 with hp3 | rfl
      · exact Or.inl hp3
      · exact Or.inr ⟨d0, by simp⟩
    · exact Or.inr ⟨d, List.mem_cons_of_mem _ hd, rfl⟩

theorem foldl_dictInsert_keys_nodup :
    ∀ (data : List TaskDict) (acc : List (Int × Task)),
      (acc.map (·.1)).Nodup →
      ((data.foldl
          (fun ts d => dictInsert ts (Task.from_dict d).id (Task.from_dict d))
          acc).map (·.1)).Nodup
  | [], _, h => h
  | _ :: rest, _, h =>
      foldl_dictInsert_keys_nodup rest _ (dictInsert_keys_nodup _ _ h)

theorem updateWorker_mgr (s : SysState) (eid : Nat) (w : Worker) :
    (updateWorker s eid w).mgr = s.mgr := rfl

theorem setEvent_mgr (s : SysState) (eid : Nat) : (setEvent s eid).mgr = s.mgr := rfl

theorem spawnWorker_tasks (s : SysState) (mk ok : Int) (t : Task) :
    (spawnWorker s mk ok t).mgr.tasks = s.mgr.tasks := rfl

theorem spawnWorker_next (s : SysState) (mk ok : Int) (t : Task) :
    (spawnWorker s mk ok t).mgr.next_id = s.mgr.next_id := rfl

/-- `remove_task` erases from the task dict and keeps the counter. -/
theorem remove_task_shape (s : SysState) (id : Int) :
    (s.remove_task id).mgr.tasks = dictErase s.mgr.tasks id
    ∧ (s.remove_task id).mgr.next_id = s.mgr.next_id := by
  unfold SysState.remove_task
  cases dictLookup s.mgr.task_threads id <;> exact ⟨rfl, rfl⟩

theorem update_task_shape (s : SysState) (id : Int) (p0 : TaskPatch) :
    ((s.update_task id p0).mgr.tasks = s.mgr.tasks
      ∨ ∃ t, dictLookup s.mgr.tasks id = some t ∧
          (s.update_task id p0).mgr.tasks = dictInsert s.mgr.tasks id (applyPatch t p0))
    ∧ (s.update_task id p0).mgr.next_id = s.mgr.next_id := by
  unfold SysState.update_task
  cases dictLookup s.mgr.tasks id
  · exact ⟨Or.inl rfl, rfl⟩
  · exact ⟨Or.inr ⟨_, rfl, rfl⟩, rfl⟩

theorem set_selected_option_shape (s : SysState) (id : Int) (idx : Int) :
    ((s.set_selected_option id idx).mgr.tasks = s.mgr.tasks
      ∨ ∃ t, dictLookup s.mgr.tasks id = some t ∧
          (s.set_selected_option id idx).mgr.tasks
            = dictInsert s.mgr.tasks id { t with selected_option := idx })
    ∧ (s.set_selected_option id idx).mgr.next_id = s.mgr.next_id := by
  unfold SysState.set_selected_option
  cases dictLookup s.mgr.tasks id
  · exact ⟨Or.inl rfl, rfl⟩
  · rename_i t
    dsimp only
    split
    · split
      · exact ⟨Or.inr ⟨t, rfl, rfl⟩, rfl⟩
      · exact ⟨Or.inl rfl, rfl⟩
    · exact ⟨Or.inl rfl, rfl⟩

theorem start_shape (s : SysState) :
    (s.start).mgr.tasks = s.mgr.tasks ∧ (s.start).mgr.next_id = s.mgr.next_id := by
  unfold SysState.start
  split
  · exact ⟨rfl, rfl⟩
  · dsimp only
    split
    · exact ⟨rfl, rfl⟩
    · exact start_fold_mgr_core _ _

theorem start_single_shape (s : SysState) (id : Int) :
    (s.start_single id).mgr.tasks = s.mgr.tasks
    ∧ (s.start_single id).mgr.next_id = s.mgr.next_id := by
  unfold SysState.start_single
  cases dictLookup s.mgr.tasks id
  · exact ⟨rfl, rfl⟩
  · split
    · exact ⟨rfl, rfl⟩
    · by_cases hct : dictContains s.mgr.task_threads id = true
      · rw [if_pos hct]
        exact ⟨rfl, rfl⟩
      · rw [if_neg hct]
        simp only [spawnWorker_tasks, spawnWorker_next]
        refine ⟨?_, ?_⟩ <;> (split <;> rfl)

theorem stop_single_shape (s : SysState) (id : Int) :
    ((s.stop_single id).mgr.tasks = s.mgr.tasks
      ∨ ∃ t, dictLookup s.mgr.tasks id = some t ∧
          (s.stop_single id).mgr.tasks
            = dictInsert s.mgr.tasks id { t with last_status := .parado })
    ∧ (s.stop_single id).mgr.next_id = s.mgr.next_id := by
  unfold SysState.stop_single
  cases dictLookup s.mgr.task_threads id
  · exact ⟨Or.inl rfl, rfl⟩
  · dsimp only
    split
    · exact ⟨Or.inl rfl, rfl⟩
    · rename_i t heq
      exact ⟨Or.inr ⟨t, heq, rfl⟩, rfl⟩

theorem stop_shape (s : SysState) :
    (s.stop).mgr.tasks = s.mgr.tasks ∧ (s.stop).mgr.next_id = s.mgr.next_id := by
  unfold SysState.stop
  dsimp only
  rw [setEvent_fold_mgr]
  exact ⟨rfl, rfl⟩

theorem workerTick_shape (s : SysState) (eid : Nat) (stopMid : Bool) (env : TickEnv) :
    ((s.workerTick eid stopMid env).mgr.tasks = s.mgr.tasks
      ∨ ∃ w t, s.workers.find? (fun w => w.eventId = eid) = some w
          ∧ dictLookup s.mgr.tasks w.taskId = some t
          ∧ (s.workerTick eid stopMid env).mgr.tasks
              = dictInsert s.mgr.tasks w.taskId
                  (runTaskTick env stopMid t
                    (dictLookup s.mgr.last_log_status w.taskId)).task)
    ∧ (s.workerTick eid stopMid env).mgr.next_id = s.mgr.next_id := by
  unfold SysState.workerTick
  cases hfind : s.workers.find? (fun w => w.eventId = eid)
  · exact ⟨Or.inl (by trivial), by trivial⟩
  · rename_i w
    dsimp only
    split
    · exact ⟨Or.inl (by trivial), by trivial⟩
    · split
      · exact ⟨Or.inl (by trivial), by trivial⟩
      · simp only [updateWorker_mgr]
        cases hlk : dictLookup s.mgr.tasks w.taskId
        · have hcont : dictContains s.mgr.tasks w.taskId = false := by
            rw [dictContains, hlk]
            rfl
          simp only [hcont, Bool.false_eq_true, if_false]
          exact ⟨Or.inl (by trivial), by trivial⟩
        · rename_i t
          have hcont : dictContains s.mgr.tasks w.taskId = true := by
            rw [dictContains, hlk]
            rfl
          simp only [hcont, if_true]
          exact ⟨Or.inr ⟨w, t, by trivial, by trivial, by trivial⟩, by trivial⟩

theorem workerFinish_shape (s : SysState) (eid : Nat) :
    ((s.workerFinish eid).mgr.tasks = s.mgr.tasks
      ∨ ∃ w t, s.workers.find? (fun w => w.eventId = eid) = some w
          ∧ dictLookup s.mgr.tasks w.taskId = some t
          ∧ (s.workerFinish eid).mgr.tasks
              = dictInsert s.mgr.tasks w.taskId { t with last_status := .parado })
    ∧ (s.workerFinish eid).mgr.next_id = s.mgr.next_id := by
  unfold SysState.workerFinish
  cases hfind : s.workers.find? (fun w => w.eventId = eid)
  · exact ⟨Or.inl (by trivial), by trivial⟩
  · rename_i w
    dsimp only
    split
    · cases hlk : dictLookup s.mgr.tasks w.taskId
      · have hcont : dictContains s.mgr.tasks w.taskId = false := by
          rw [dictContains, hlk]
          rfl
        simp only [hcont, Bool.false_eq_true, if_false]
        exact ⟨Or.inl (by trivial), by trivial⟩
      · rename_i t
        have hcont : dictContains s.mgr.tasks w.taskId = true := by
          rw [dictContains, hlk]
          rfl
        simp only [hcont, if_true]
        exact ⟨Or.inr ⟨w, t, by trivial, by trivial, by trivial⟩, by trivial⟩
    · exact ⟨Or.inl (by trivial), by trivial⟩

theorem tasksOk_insert_existing {tasks : List (Int × Task)} {nid k : Int} {t : Task}
    (t' : Task)
    (hlk : dictLookup tasks k = some t)
    (hok : ∀ p ∈ tasks, p.1 = p.2.id ∧ p.2.id < nid)
    (hnd : (tasks.map (·.1)).Nodup)
    (hid : t'.id = t.id) :
    (∀ p ∈ dictInsert tasks k t', p.1 = p.2.id ∧ p.2.id < nid)
    ∧ ((dictInsert tasks k t').map (·.1)).Nodup := by
  refine ⟨?_, dictInsert_keys_nodup k t' hnd⟩
  intro p hp
  rcases mem_dictInsert hp with hp2 | rfl
  · exact hok p hp2
  · have hk := hok (k, t) (dictLookup_mem hlk)
    exact ⟨hk.1.trans hid.symm, lt_of_eq_of_lt hid hk.2⟩

theorem TaskIdsInv_congr {s s' : SysState}
    (he : s'.mgr.tasks = s.mgr.tasks) (hn : s'.mgr.next_id = s.mgr.next_id)
    (h : TaskIdsInv s) : TaskIdsInv s' := by
  unfold TaskIdsInv at h ⊢
  rw [he, hn]
  exact h

theorem TaskIdsInv_insert_existing {s s' : SysState} {k : Int} {t : Task} (t' : Task)
    (hlk : dictLookup s.mgr.tasks k = some t)
    (he : s'.mgr.tasks = dictInsert s.mgr.tasks k t')
    (hn : s'.mgr.next_id = s.mgr.next_id)
    (hid : t'.id = t.id)
    (h : TaskIdsInv s) : TaskIdsInv s' := by
  obtain ⟨hok, hnd⟩ := h
  unfold TaskIdsInv
  rw [he, hn]
  exact tasksOk_insert_existing t' hlk hok hnd hid

theorem TaskIdsInv_erase {s s' : SysState} {k : Int}
    (he : s'.mgr.tasks = dictErase s.mgr.tasks k)
    (hn : s'.mgr.next_id = s.mgr.next_id)
    (h : TaskIdsInv s) : TaskIdsInv s' := by
  obtain ⟨hok, hnd⟩ := h
  unfold TaskIdsInv
  rw [he, hn]
  exact ⟨fun p hp => hok p (mem_dictErase hp), dictErase_keys_nodup _ hnd⟩

theorem inv_execOp (s : SysState) (op : MgrOp) (hop : opSafeForIds op)
    (hinv : TaskIdsInv s) : TaskIdsInv (execOp s op) := by
  cases op with
  | add a =>
    obtain ⟨hok, hnd⟩ := hinv
    refine ⟨?_, ?_⟩
    · intro p hp
      have hp' : p ∈ dictInsert s.mgr.tasks s.mgr.next_id (s.mgr.add_task a).2 := hp
      have hgoal : p.1 = p.2.id ∧ p.2.id < s.mgr.next_id + 1 := by
        rcases mem_dictInsert hp' with hp2 | rfl
        · obtain ⟨h1, h2⟩ := hok p hp2
          exact ⟨h1, lt_trans h2 (lt_add_one _)⟩
        · exact ⟨rfl, lt_add_one _⟩
      exact hgoal
    · show ((dictInsert s.mgr.tasks s.mgr.next_id (s.mgr.add_task a).2).map (·.1)).Nodup
      exact dictInsert_keys_nodup _ _ hnd
  | remove id =>
    obtain ⟨he, hn⟩ := remove_task_shape s id
    exact TaskIdsInv_erase he hn hinv
  | update id p0 =>
    obtain ⟨hsh, hn⟩ := update_task_shape s id p0
    rcases hsh with he | ⟨t, hlk, he⟩
    · exact TaskIdsInv_congr he hn hinv
    · refine TaskIdsInv_insert_existing _ hlk he hn ?_ hinv
      have hop' : p0.id = none := hop
      show p0.id.getD t.id = t.id
      rw [hop']
      rfl
  | setSel id idx =>
    obtain ⟨hsh, hn⟩ := set_selected_option_shape s id idx
    rcases hsh with he | ⟨t, hlk, he⟩
    · exact TaskIdsInv_congr he hn hinv
    · exact TaskIdsInv_insert_existing _ hlk he hn rfl hinv
  | startAll =>
    obtain ⟨he, hn⟩ := start_shape s
    exact TaskIdsInv_congr he hn hinv
  | startSingle id =>
    obtain ⟨he, hn⟩ := start_single_shape s id
    exact TaskIdsInv_congr he hn hinv
  | stopSingle id =>
    obtain ⟨hsh, hn⟩ := stop_single_shape s id
    rcases hsh with he | ⟨t, hlk, he⟩
    · exact TaskIdsInv_congr he hn hinv
    · exact TaskIdsInv_insert_existing _ hlk he hn rfl hinv
  | stopAll =>
    obtain ⟨he, hn⟩ := stop_shape s
    exact TaskIdsInv_congr he hn hinv
  | clear => exact False.elim hop
  | load f =>
    rcases f with _ | f2
    · exact hinv
    · rcases f2 with e | data
      · exact hinv
      · obtain ⟨hok, hnd⟩ := hinv
        have heq := load_tasks_ok_eq s.mgr data
        refine ⟨?_, ?_⟩
        · intro p hp
          have hp' : p ∈ data.foldl
              (fun ts d => dictInsert ts (Task.from_dict d).id (Task.from_dict d))
              [] := by
            have hp0 : p ∈ (s.mgr.load_tasks (some (.ok data))).tasks := hp
            rw [heq] at hp0
            exact hp0
          have hgoal : p.1 = p.2.id
              ∧ p.2.id < data.foldl (fun n d => max n (d.id + 1)) s.mgr.next_id := by
            rcases mem_foldl_dictInsert data [] p hp' with h0 | ⟨d, hd, rfl⟩
            · exact absurd h0 (List.not_mem_nil p)
            · refine ⟨rfl, ?_⟩
              have hle := foldl_max_id_mem data s.mgr.next_id d hd
              exact Int.lt_iff_add_one_le.mpr hle
          have hneq : (execOp s (.load (some (.ok data)))).mgr.next_id
              = data.foldl (fun n d => max n (d.id + 1)) s.mgr.next_id := by
            show (s.mgr.load_tasks (some (.ok data))).next_id = _
            rw [heq]
          rw [hneq]
          exact hgoal
        · have h2 : ((data.foldl
              (fun ts d => dictInsert ts (Task.from_dict d).id (Task.from_dict d))
              []).map (·.1)).Nodup :=
            foldl_dictInsert_keys_nodup data [] (by simp)
          have h3 : ((s.mgr.load_tasks (some (.ok data))).tasks.map (·.1)).Nodup := by
            rw [heq]
            exact h2
          exact h3
  | tick eid stopMid env =>
    obtain ⟨hsh, hn⟩ := workerTick_shape s eid stopMid env
    rcases hsh with he | ⟨w, t, hfind, hlk, he⟩
    · exact TaskIdsInv_congr he hn hinv
    · exact TaskIdsInv_insert_existing _ hlk he hn
        (runTaskTick_id env stopMid t (dictLookup s.mgr.last_log_status w.taskId)) hinv
  | finish eid =>
    obtain ⟨hsh, hn⟩ := workerFinish_shape s eid
    rcases hsh with he | ⟨w, t, hfind, hlk, he⟩
    · exact TaskIdsInv_congr he hn hinv
    · exact TaskIdsInv_insert_existing _ hlk he hn rfl hinv

theorem nextId_mono (s : SysState) (op : MgrOp) (hop : opSafeForIds op) :
    s.mgr.next_id ≤ (execOp s op).mgr.next_id := by
  cases op with
  | add a =>
    have h : s.mgr.next_id ≤ s.mgr.next_id + 1 := le_of_lt (lt_add_one _)
    exact h
  | remove id => exact le_of_eq (remove_task_shape s id).2.symm
  | update id p0 => exact le_of_eq (update_task_shape s id p0).2.symm
  | setSel id idx => exact le_of_eq (set_selected_option_shape s id idx).2.symm
  | startAll => exact le_of_eq (start_shape s).2.symm
  | startSingle id => exact le_of_eq (start_single_shape s id).2.symm
  | stopSingle id => exact le_of_eq (stop_single_shape s id).2.symm
  | stopAll => exact le_of_eq (stop_shape s).2.symm
  | clear => exact False.elim hop
  | load f =>
    rcases f with _ | f2
    · exact le_refl _
    · rcases f2 with e | data
      · exact le_refl _
      · have h : s.mgr.next_id
            ≤ data.foldl (fun n d => max n (d.id + 1)) s.mgr.next_id :=
          foldl_max_id_init_le data s.mgr.next_id
        have hneq : (execOp s (.load (some (.ok data)))).mgr.next_id
            = data.foldl (fun n d => max n (d.id + 1)) s.mgr.next_id := by
          show (s.mgr.load_tasks (some (.ok data))).next_id = _
          rw [load_tasks_ok_eq]
        rw [hneq]
        exact h
  | tick eid stopMid env => exact le_of_eq (workerTick_shape s eid stopMid env).2.symm
  | finish eid => exact le_of_eq (workerFinish_shape s eid).2.symm

theorem assignedIds_lb :
    ∀ (ops : List MgrOp) (s : SysState), (∀ op ∈ ops, opSafeForIds op) →
      ∀ i ∈ assignedIds s ops, s.mgr.next_id ≤ i := by
  intro ops
  induction ops with
  | nil =>
    intro s _ i hi
    simp [assignedIds] at hi
  | cons op ops ih =>
    intro s hsafe i hi
    have hop := hsafe op (List.mem_cons_self _ _)
    have hmono := nextId_mono s op hop
    have htail := fun j hj =>
      ih (execOp s op) (fun o ho => hsafe o (List.mem_cons_of_mem _ ho)) j hj
    cases op
    all_goals simp only [assignedIds] at hi
    case add a =>
      rcases List.mem_cons.mp hi with rfl | hi2
      · exact le_refl _
      · exact le_trans hmono (htail i hi2)
    all_goals exact le_trans hmono (htail i hi)

theorem assignedIds_chain :
    ∀ (ops : List MgrOp) (s : SysState), (∀ op ∈ ops, opSafeForIds op) →
      List.Chain' (· < ·) (assignedIds s ops) := by
  intro ops
  induction ops with
  | nil =>
    intro s _
    simp [assignedIds]
  | cons op ops ih =>
    intro s hsafe
    have hop := hsafe op (List.mem_cons_self _ _)
    have hsafe2 := fun o ho => hsafe o (List.mem_cons_of_mem op ho)
    have htail := ih (execOp s op) hsafe2
    cases op
    all_goals simp only [assignedIds]
    case add a =>
      refine List.chain'_cons'.mpr ⟨?_, htail⟩
      intro b hb
      have hb2 := List.mem_of_mem_head? hb
      have hlb := assignedIds_lb ops (execOp s (.add a)) hsafe2 b hb2
      have h1 : s.mgr.next_id + 1 ≤ b := hlb
      exact Int.lt_iff_add_one_le.mpr h1
    all_goals exact htail

theorem inv_execOps :
    ∀ (ops : List MgrOp) (s : SysState), (∀ op ∈ ops, opSafeForIds op) →
      TaskIdsInv s → TaskIdsInv (execOps s ops)
  | [], _, _, hinv => hinv
  | op :: ops, s, hsafe, hinv =>
    inv_execOps ops (execOp s op)
      (fun o ho => hsafe o (List.mem_cons_of_mem _ ho))
      (inv_execOp s op (hsafe op (List.mem_cons_self _ _)) hinv)

/-- C4: for any operation sequence from a fresh manager that avoids
`clear_tasks` and id-field patches through `update_task`, the ids handed out
by the `add_task` calls are strictly increasing, the ids of the stored tasks
are pairwise distinct, and every stored id is below the `_next_id` counter. -/
theorem c4_id_monotonicity_amended (ops : List MgrOp)
    (hsafe : ∀ op ∈ ops, opSafeForIds op) :
    List.Chain' (· < ·) (assignedIds sysInit ops)
    ∧ ((execOps sysInit ops).mgr.tasks.map fun p => p.2.id).Nodup
    ∧ ∀ p ∈ (execOps sysInit ops).mgr.tasks,
        p.2.id < (execOps sysInit ops).mgr.next_id := by
  have hinv0 : TaskIdsInv sysInit :=
    ⟨fun p hp => absurd hp (List.not_mem_nil p), List.nodup_nil⟩
  obtain ⟨hok, hnd⟩ := inv_execOps ops sysInit hsafe hinv0
  refine ⟨assignedIds_chain ops sysInit hsafe, ?_, fun p hp => (hok p hp).2⟩
  have hmapeq : ((execOps sysInit ops).mgr.tasks.map fun p => p.2.id)
      = (execOps sysInit ops).mgr.tasks.map (·.1) :=
    List.map_congr_left fun p hp => ((hok p hp).1).symm
  rw [hmapeq]
  exact hnd

/-- C4 counterexample: after `add_task; clear_tasks; add_task` the two
`add_task` calls hand out the id 1 twice (`clear_tasks` resets the counter),
and `update_task(1, id=2)` makes two stored tasks share the id 2, refuting
the unconditional distinctness/monotonicity reading. -/
theorem c4_counterexample :
    assignedIds sysInit [MgrOp.add {}, MgrOp.clear, MgrOp.add {}] = [1, 1]
    ∧ ¬ List.Chain' (· < ·)
        (assignedIds sysInit [MgrOp.add {}, MgrOp.clear, MgrOp.add {}])
    ∧ ((execOps sysInit [MgrOp.add {}, MgrOp.add {},
          MgrOp.update 1 { id := some 2 }]).mgr.tasks.map fun p => p.2.id)
        = [2, 2] := by
  have h1 : assignedIds sysInit [MgrOp.add {}, MgrOp.clear, MgrOp.add {}]
      = [1, 1] := by decide
  refine ⟨h1, ?_, by decide⟩
  rw [h1]
  intro h
  exact absurd (List.chain'_cons.mp h).1 (by decide)

/-- C4 witness: a concrete safe trace (two adds, a start, a remove) on which
the amended monotonicity statement is instantiated. -/
theorem c4_witness :
    (∀ op ∈ ([MgrOp.add {}, MgrOp.startSingle 1, MgrOp.add {},
        MgrOp.remove 1] : List MgrOp), opSafeForIds op)
    ∧ (List.Chain' (· < ·) (assignedIds sysInit
          [MgrOp.add {}, MgrOp.startSingle 1, MgrOp.add {}, MgrOp.remove 1])
      ∧ ((execOps sysInit [MgrOp.add {}, MgrOp.startSingle 1, MgrOp.add {},
            MgrOp.remove 1]).mgr.tasks.map fun p => p.2.id).Nodup
      ∧ ∀ p ∈ (execOps sysInit [MgrOp.add {}, MgrOp.startSingle 1, MgrOp.add {},
            MgrOp.remove 1]).mgr.tasks,
          p.2.id < (execOps sysInit [MgrOp.add {}, MgrOp.startSingle 1,
            MgrOp.add {}, MgrOp.remove 1]).mgr.next_id) :=
  have hsafe : ∀ op ∈ ([MgrOp.add {}, MgrOp.startSingle 1, MgrOp.add {},
      MgrOp.remove 1] : List MgrOp), opSafeForIds op := by
    intro op hop
    fin_cases hop <;> trivial
  ⟨hsafe, c4_id_monotonicity_amended _ hsafe⟩

end ImageClicker
